/-
Verification of the class-I icosahedron truncation program
(icosa_truncations.cpp) against its natural-language specification.

The C program's `double` arithmetic is modelled over the real numbers ℝ
(and, for the generic iterative solver, over an arbitrary linear ordered
field so that concrete runs can be evaluated exactly over ℚ).  C structs
become Lean structures; functions that write through pointers become pure
functions returning the updated structure; struct fields that a C function
leaves untouched are threaded through as an explicit "previous value"
argument.  C's `asin`/`acos`/`atan` are modelled by `Real.arcsin`,
`Real.arccos`, `Real.arctan`.
-/
import Mathlib

set_option maxHeartbeats 1600000
set_option maxRecDepth 8000

open Real

/-- Conversion macro `DTR` from the source:
`#define DTR( degree ) ( ( degree ) * 0.01745329251994329576923690768489 )`.
Generic over a linear ordered field so it can be used both over ℝ and ℚ. -/
def DTR {α : Type} [LinearOrderedField α] (degree : α) : α :=
  degree * 0.01745329251994329576923690768489

/-- `SPH_TRI`: a spherical triangle and its component angles (sides a b c,
angles A B C), all `double` in the source. -/
structure SPH_TRI where
  a : ℝ
  b : ℝ
  c : ℝ
  A : ℝ
  B : ℝ
  C : ℝ

/-- `GUT_POINT`: cartesian coordinate (x, y, z, homogeneous w). -/
@[ext] structure GUT_POINT where
  x : ℝ
  y : ℝ
  z : ℝ
  w : ℝ

/-- `GUT_VECTOR`: vector (i, j, k, l). -/
@[ext] structure GUT_VECTOR where
  i : ℝ
  j : ℝ
  k : ℝ
  l : ℝ

/-- `GUT_SPHERICAL_COORD`: spherical coordinate (radius, azimuth, inclination). -/
structure GUT_SPHERICAL_COORD where
  radius : ℝ
  azimuth : ℝ
  inclination : ℝ

/-- A `double m[16]` row-major 4x4 matrix, one named field per slot. -/
@[ext] structure Mtx where
  m0 : ℝ
  m1 : ℝ
  m2 : ℝ
  m3 : ℝ
  m4 : ℝ
  m5 : ℝ
  m6 : ℝ
  m7 : ℝ
  m8 : ℝ
  m9 : ℝ
  m10 : ℝ
  m11 : ℝ
  m12 : ℝ
  m13 : ℝ
  m14 : ℝ
  m15 : ℝ

/-- `gut_vector`: v = b - a componentwise on x,y,z.  The source leaves the
`l` slot of the output untouched (stack garbage, never read downstream);
we fix it to 0. -/
def gut_vector (a b : GUT_POINT) : GUT_VECTOR :=
  ⟨b.x - a.x, b.y - a.y, b.z - a.z, 0⟩

/-- `gut_normalize_vector`: divide the i,j,k components by the Euclidean
length.  (In Lean division by a zero length yields 0; all uses in the
program are on vectors proved nonzero.) -/
noncomputable def gut_normalize_vector (v : GUT_VECTOR) : GUT_VECTOR :=
  let distance := Real.sqrt (v.i * v.i + v.j * v.j + v.k * v.k)
  ⟨v.i / distance, v.j / distance, v.k / distance, v.l⟩

/-- `gut_cross_product`: c = a x b on the i,j,k components (`l` untouched
garbage in C, fixed to 0 here; it is never read downstream). -/
def gut_cross_product (a b : GUT_VECTOR) : GUT_VECTOR :=
  ⟨a.j * b.k - a.k * b.j, a.k * b.i - a.i * b.k, a.i * b.j - a.j * b.i, 0⟩

/-- `gut_spherical_to_cartesian`: writes x,y,z of the target point from
the spherical coordinate; the target's prior `w` is left untouched, so the
prior point is threaded through. -/
noncomputable def gut_spherical_to_cartesian (sc : GUT_SPHERICAL_COORD)
    (p : GUT_POINT) : GUT_POINT :=
  { p with
    x := sc.radius * Real.sin sc.inclination * Real.cos sc.azimuth
    y := sc.radius * Real.sin sc.inclination * Real.sin sc.azimuth
    z := sc.radius * Real.cos sc.inclination }

/-- The fixed zero-comparison epsilon `ZERO = 0.00000000000001` used by
`gut_cartesian_to_spherical`. -/
def ZERO : ℝ := 0.00000000000001

/-- `gut_cartesian_to_spherical`: the radius field is always written; when
the radius is within `ZERO` of 0 the function returns early leaving the
inclination and azimuth fields at their prior values (hence the prior
spherical coordinate `s` is threaded through); otherwise inclination is
`acos (z / radius)` and azimuth follows the quadrant table of the source. -/
noncomputable def gut_cartesian_to_spherical (p : GUT_POINT)
    (s : GUT_SPHERICAL_COORD) : GUT_SPHERICAL_COORD :=
  let radius := Real.sqrt (p.x * p.x + p.y * p.y + p.z * p.z)
  if |radius| > ZERO then
    { radius := radius
      inclination := Real.arccos (p.z / radius)
      azimuth :=
        if |p.x| ≤ ZERO then
          if |p.y| ≤ ZERO then 0
          else if p.y > 0 then DTR 90
          else DTR (-90)
        else if p.x > 0 then
          if |p.y| ≤ ZERO then 0
          else if p.y > 0 then Real.arctan (p.y / p.x)
          else Real.arctan (p.y / p.x)
        else
          if |p.y| ≤ ZERO then DTR 180
          else if p.y > 0 then DTR 180 + Real.arctan (p.y / p.x)
          else DTR (-180) + Real.arctan (p.y / p.x) }
  else
    { s with radius := radius }

/-- `mtx_set_unity`: the 4x4 identity; in C this resets a caller buffer,
modelled as the constant matrix value. -/
def mtx_set_unity : Mtx :=
  ⟨1, 0, 0, 0, 0, 1, 0, 0, 0, 0, 1, 0, 0, 0, 0, 1⟩

/-- `mtx_create_scale_matrix`: identity with m0, m5, m10 replaced. -/
def mtx_create_scale_matrix (x y z : ℝ) : Mtx :=
  { mtx_set_unity with m0 := x, m5 := y, m10 := z }

/-- `mtx_transpose_matrix`: the in-place swap loop of the source amounts
to exchanging slot r*4+c with slot c*4+r. -/
def mtx_transpose_matrix (m : Mtx) : Mtx :=
  ⟨m.m0, m.m4, m.m8, m.m12,
   m.m1, m.m5, m.m9, m.m13,
   m.m2, m.m6, m.m10, m.m14,
   m.m3, m.m7, m.m11, m.m15⟩

/-- `mtx_multiply_matrix`, transcribed slot by slot from the source.
Note: the source computes slot 11 (row 3, column 3) as
`c[11] = a[4]*b[3] + a[5]*b[7] + a[6]*b[11] + a[7]*b[15]`,
i.e. with the row-2 coefficients of `a`, under the `// row 3` comment.
This transcription keeps that behaviour. -/
def mtx_multiply_matrix (a b : Mtx) : Mtx :=
  ⟨a.m0 * b.m0 + a.m1 * b.m4 + a.m2 * b.m8 + a.m3 * b.m12,
   a.m0 * b.m1 + a.m1 * b.m5 + a.m2 * b.m9 + a.m3 * b.m13,
   a.m0 * b.m2 + a.m1 * b.m6 + a.m2 * b.m10 + a.m3 * b.m14,
   a.m0 * b.m3 + a.m1 * b.m7 + a.m2 * b.m11 + a.m3 * b.m15,
   a.m4 * b.m0 + a.m5 * b.m4 + a.m6 * b.m8 + a.m7 * b.m12,
   a.m4 * b.m1 + a.m5 * b.m5 + a.m6 * b.m9 + a.m7 * b.m13,
   a.m4 * b.m2 + a.m5 * b.m6 + a.m6 * b.m10 + a.m7 * b.m14,
   a.m4 * b.m3 + a.m5 * b.m7 + a.m6 * b.m11 + a.m7 * b.m15,
   a.m8 * b.m0 + a.m9 * b.m4 + a.m10 * b.m8 + a.m11 * b.m12,
   a.m8 * b.m1 + a.m9 * b.m5 + a.m10 * b.m9 + a.m11 * b.m13,
   a.m8 * b.m2 + a.m9 * b.m6 + a.m10 * b.m10 + a.m11 * b.m14,
   a.m4 * b.m3 + a.m5 * b.m7 + a.m6 * b.m11 + a.m7 * b.m15,
   a.m12 * b.m0 + a.m13 * b.m4 + a.m14 * b.m8 + a.m15 * b.m12,
   a.m12 * b.m1 + a.m13 * b.m5 + a.m14 * b.m9 + a.m15 * b.m13,
   a.m12 * b.m2 + a.m13 * b.m6 + a.m14 * b.m10 + a.m15 * b.m14,
   a.m12 * b.m3 + a.m13 * b.m7 + a.m14 * b.m11 + a.m15 * b.m15⟩

/-- `mtx_vec4_multiply` in its single-vector form (`length == 1`), acting
on a point reinterpreted as a 4-vector exactly as the program does through
its pointer cast: the row vector (x,y,z,w) is multiplied on the right by
the matrix. -/
def mtx_vec4_multiply (a : GUT_POINT) (m : Mtx) : GUT_POINT :=
  ⟨a.x * m.m0 + a.y * m.m4 + a.z * m.m8 + a.w * m.m12,
   a.x * m.m1 + a.y * m.m5 + a.z * m.m9 + a.w * m.m13,
   a.x * m.m2 + a.y * m.m6 + a.z * m.m10 + a.w * m.m14,
   a.x * m.m3 + a.y * m.m7 + a.z * m.m11 + a.w * m.m15⟩

/-- The matrix A of the failing input for the row-3/column-3 slot of
`mtx_multiply_matrix`: A[11] = 1 and every other slot 0. -/
def mtxE11 : Mtx :=
  ⟨0, 0, 0, 0, 0, 0, 0, 0, 0, 0, 0, 1, 0, 0, 0, 0⟩

/-- C1.  The claim states that `mtx_multiply_matrix` writes the full
row-major product, i.e. C[r*4+k] = Σ_j A[r*4+j]·B[j*4+k] for all r,k.
This fails at r = 2, k = 3 (slot 11): the source computes slot 11 from the
row-2 coefficients a[4..7] (copy-paste slip under its own `// row 3`
comment).  At A = mtxE11 (A[11] = 1, rest 0) and B = identity the code
yields C[11] = 0, while the row-major product formula demanded by the
claim yields A[8]·B[3] + A[9]·B[7] + A[10]·B[11] + A[11]·B[15] = 1. -/
theorem mtx_multiply_matrix_slot11_bug :
    (mtx_multiply_matrix mtxE11 mtx_set_unity).m11 = 0 ∧
    mtxE11.m8 * mtx_set_unity.m3 + mtxE11.m9 * mtx_set_unity.m7 +
      mtxE11.m10 * mtx_set_unity.m11 + mtxE11.m11 * mtx_set_unity.m15 = 1 ∧
    (∀ a b : Mtx, (mtx_multiply_matrix a b).m11 =
      a.m4 * b.m3 + a.m5 * b.m7 + a.m6 * b.m11 + a.m7 * b.m15) := by
  refine ⟨by norm_num [mtx_multiply_matrix, mtxE11, mtx_set_unity],
    by norm_num [mtxE11, mtx_set_unity], fun a b => rfl⟩

/-- The seed/step update policy of `build_loop`'s solution loop, transcribed
from the source: given the current residual `diff`, the previous residual
`lastdiff`, the current `seed` and step `delta`, return the new (seed, delta).
`*seed -= prob.delta; prob.delta *= -1; *seed += prob.delta` becomes
`(seed - delta + delta * -1, delta * -1)`, and
`*seed -= prob.delta; prob.delta /= -2.0; *seed += prob.delta` becomes
`(seed - delta + delta / -2, delta / -2)`.  When `diff = 0` neither branch
fires and seed/delta are unchanged. -/
def build_loop_step {α : Type} [LinearOrderedField α]
    (diff lastdiff seed delta : α) : α × α :=
  if diff > 0 then
    if lastdiff > 0 then
      if diff < lastdiff then (seed + delta, delta)
      else (seed - delta + delta * -1, delta * -1)
    else if lastdiff < 0 then (seed - delta + delta / -2, delta / -2)
    else (seed + delta, delta)
  else if diff < 0 then
    if lastdiff < 0 then
      if diff > lastdiff then (seed + delta, delta)
      else (seed - delta + delta * -1, delta * -1)
    else if lastdiff > 0 then (seed - delta + delta / -2, delta / -2)
    else (seed + delta, delta)
  else (seed, delta)

/-- The `while (1)` solution loop of `build_loop`.  In the source the loop
counter runs 1,2,... and the 200th call of the build function returns the
sentinel -1.0 before the tolerance test; here the fuel argument counts the
remaining calls before that cap, so fuel `0` is exactly the call at
`prob.loop == max` (its residual is only printed, then -1.0 is returned),
and the initial fuel is 199.  Returns (result, final seed). -/
def build_loop_go {α : Type} [LinearOrderedField α] (f : α → α) (tol : α) :
    ℕ → α → α → α → α × α
  | 0, seed, _delta, _lastdiff => (-1, seed)
  | n + 1, seed, delta, lastdiff =>
    let diff := f seed
    if |diff| ≤ tol then (|diff|, seed)
    else
      let sd := build_loop_step diff lastdiff seed delta
      build_loop_go f tol n sd.1 sd.2 diff

/-- `build_loop`: iteration cap `max = 200`, initial step `inc = DTR(0.5)`,
tolerance `r_zero`, initial `lastdiff = 0` (the unused `prob.dir` field is
dropped).  Returns (result, final seed); the C function returns the result
and leaves the final seed in `*seed`. -/
def build_loop {α : Type} [LinearOrderedField α] (f : α → α)
    (seed r_zero : α) : α × α :=
  build_loop_go f r_zero 199 seed (DTR 0.5) 0

theorem build_loop_go_zero {α : Type} [LinearOrderedField α] (f : α → α)
    (tol seed delta lastdiff : α) :
    build_loop_go f tol 0 seed delta lastdiff = (-1, seed) := rfl

theorem build_loop_go_succ {α : Type} [LinearOrderedField α] (f : α → α)
    (tol : α) (n : ℕ) (seed delta lastdiff : α) :
    build_loop_go f tol (n + 1) seed delta lastdiff =
      if |f seed| ≤ tol then (|f seed|, seed)
      else build_loop_go f tol n (build_loop_step (f seed) lastdiff seed delta).1
        (build_loop_step (f seed) lastdiff seed delta).2 (f seed) := rfl

theorem build_loop_go_dichotomy (f : ℝ → ℝ) (tol : ℝ) :
    ∀ (n : ℕ) (seed delta lastdiff : ℝ),
      (build_loop_go f tol n seed delta lastdiff).1 = -1 ∨
      (0 ≤ (build_loop_go f tol n seed delta lastdiff).1 ∧
       (build_loop_go f tol n seed delta lastdiff).1 ≤ tol ∧
       (build_loop_go f tol n seed delta lastdiff).1 =
         |f (build_loop_go f tol n seed delta lastdiff).2|) := by
  intro n
  induction n with
  | zero => intro seed delta lastdiff; left; rfl
  | succ n ih =>
    intro seed delta lastdiff
    rw [build_loop_go_succ]
    by_cases h : |f seed| ≤ tol
    · rw [if_pos h]
      exact Or.inr ⟨abs_nonneg _, h, rfl⟩
    · rw [if_neg h]
      exact ih _ _ _

/-- C3.  For every residual function and tolerance, `build_loop` stops as
soon as the residual satisfies |diff| ≤ tolerance and returns |diff| (in
particular when already true at the first call), and in general its result
is either the sentinel -1.0 (iteration cap of 200 reached, reported via a
diagnostic printf that is not modelled) or a non-negative value ≤ the
tolerance, namely |diff| at the final seed. -/
theorem build_loop_converges_or_sentinel (f : ℝ → ℝ) (seed r_zero : ℝ) :
    (|f seed| ≤ r_zero → build_loop f seed r_zero = (|f seed|, seed)) ∧
    ((build_loop f seed r_zero).1 = -1 ∨
      (0 ≤ (build_loop f seed r_zero).1 ∧
       (build_loop f seed r_zero).1 ≤ r_zero ∧
       (build_loop f seed r_zero).1 = |f (build_loop f seed r_zero).2|)) := by
  constructor
  · intro h
    show build_loop_go f r_zero (198 + 1) seed (DTR 0.5) 0 = _
    rw [build_loop_go_succ, if_pos h]
  · exact build_loop_go_dichotomy f r_zero 199 seed (DTR 0.5) 0

theorem build_loop_converges_or_sentinel_witness :
    build_loop (fun x : ℝ => x) 0 0 = (0, 0) := by
  have h := (build_loop_converges_or_sentinel (fun x : ℝ => x) 0 0).1 (by simp)
  simpa using h

/-- C10.  The iteration-cap check happens after calling the build function
but before the tolerance test: at the call where the loop counter reaches
the cap (fuel 0 here, the 200th invocation), `build_loop_go` returns the
sentinel -1.0 even when that invocation's residual is within tolerance,
while on any earlier invocation (fuel n+1, i.e. invocations 1..199) a
residual within tolerance returns |diff|.  So convergence is only possible
on one of the first 199 invocations. -/
theorem build_loop_cap_before_tolerance :
    (∀ (f : ℝ → ℝ) (tol seed delta lastdiff : ℝ), |f seed| ≤ tol →
        build_loop_go f tol 0 seed delta lastdiff = (-1, seed)) ∧
    (∀ (f : ℝ → ℝ) (tol seed delta lastdiff : ℝ) (n : ℕ), |f seed| ≤ tol →
        build_loop_go f tol (n + 1) seed delta lastdiff = (|f seed|, seed)) := by
  constructor
  · intro f tol seed delta lastdiff _
    rfl
  · intro f tol seed delta lastdiff n h
    rw [build_loop_go_succ, if_pos h]

theorem build_loop_cap_before_tolerance_witness :
    build_loop_go (fun x : ℝ => x) 0 0 0 1 0 = (-1, 0) ∧
    build_loop_go (fun x : ℝ => x) 0 1 0 1 0 = (0, 0) := by
  constructor
  · exact build_loop_cap_before_tolerance.1 (fun x => x) 0 0 1 0 (by simp)
  · simpa using build_loop_cap_before_tolerance.2 (fun x => x) 0 0 1 0 0 (by simp)

/- Exact evaluation support for the synthetic `build_loop` run: an
integer-scaled mirror of the loop.  With every quantity multiplied by
`D = 10^32 * 2^200`, the whole trajectory of the run with residual
`f(x) = x - 1.2345`, seed 0 and tolerance 1e-11 stays in `ℤ` (the initial
delta `DTR 0.5` scales to an integer divisible by `2^199`, and each
halving consumes one factor of 2), so the kernel can evaluate it. -/

def build_loop_zstep (diff lastdiff seed delta : ℤ) : ℤ × ℤ :=
  if diff > 0 then
    if lastdiff > 0 then
      if diff < lastdiff then (seed + delta, delta)
      else (seed - delta + delta * -1, delta * -1)
    else if lastdiff < 0 then (seed - delta + delta / -2, delta / -2)
    else (seed + delta, delta)
  else if diff < 0 then
    if lastdiff < 0 then
      if diff > lastdiff then (seed + delta, delta)
      else (seed - delta + delta * -1, delta * -1)
    else if lastdiff > 0 then (seed - delta + delta / -2, delta / -2)
    else (seed + delta, delta)
  else (seed, delta)

def build_loop_zgo (c tol : ℤ) : ℕ → ℤ → ℤ → ℤ → ℤ × ℤ
  | 0, seed, _delta, _lastdiff => (-1, seed)
  | n + 1, seed, delta, lastdiff =>
    let diff := seed - c
    let adiff := if diff < 0 then -diff else diff
    if adiff ≤ tol then (adiff, seed)
    else
      let sd := build_loop_zstep diff lastdiff seed delta
      build_loop_zgo c tol n sd.1 sd.2 diff

theorem build_loop_zgo_zero (c tol seed delta lastdiff : ℤ) :
    build_loop_zgo c tol 0 seed delta lastdiff = (-1, seed) := rfl

theorem build_loop_zgo_succ (c tol : ℤ) (n : ℕ) (seed delta lastdiff : ℤ) :
    build_loop_zgo c tol (n + 1) seed delta lastdiff =
      if (if seed - c < 0 then -(seed - c) else seed - c) ≤ tol
      then ((if seed - c < 0 then -(seed - c) else seed - c), seed)
      else build_loop_zgo c tol n
        (build_loop_zstep (seed - c) lastdiff seed delta).1
        (build_loop_zstep (seed - c) lastdiff seed delta).2 (seed - c) := rfl

theorem zdiv_neg_two (m : ℤ) : (2 * m) / (-2) = -m := by omega

theorem rho_lt {D : ℝ} (hD : 0 < D) {a b : ℤ} : (a : ℝ) / D < (b : ℝ) / D ↔ a < b := by
  rw [div_lt_div_iff_of_pos_right hD]
  exact_mod_cast Iff.rfl

theorem rho_le {D : ℝ} (hD : 0 < D) {a b : ℤ} : (a : ℝ) / D ≤ (b : ℝ) / D ↔ a ≤ b := by
  rw [div_le_div_iff_of_pos_right hD]
  exact_mod_cast Iff.rfl

theorem rho_neg_iff {D : ℝ} (hD : 0 < D) {a : ℤ} : (a : ℝ) / D < 0 ↔ a < 0 := by
  have := rho_lt hD (a := a) (b := 0)
  simpa using this

theorem rho_pos_iff {D : ℝ} (hD : 0 < D) {a : ℤ} : 0 < (a : ℝ) / D ↔ 0 < a := by
  have := rho_lt hD (a := 0) (b := a)
  simpa using this

theorem build_loop_zstep_corr {D : ℝ} (hD : 0 < D) (diff lastdiff seed delta : ℤ)
    (h2 : 2 ∣ delta) :
    build_loop_step ((diff : ℝ) / D) ((lastdiff : ℝ) / D) ((seed : ℝ) / D) ((delta : ℝ) / D) =
      (((build_loop_zstep diff lastdiff seed delta).1 : ℝ) / D,
       ((build_loop_zstep diff lastdiff seed delta).2 : ℝ) / D) := by
  obtain ⟨m, hm⟩ := h2
  have hdiv : (delta / (-2) : ℤ) = -m := by rw [hm, zdiv_neg_two]
  unfold build_loop_step build_loop_zstep
  simp only [gt_iff_lt, rho_pos_iff hD, rho_neg_iff hD, rho_lt hD]
  split_ifs <;>
    simp only [Prod.mk.injEq, hdiv] <;>
    (try constructor) <;>
    first
      | trivial
      | (rw [hm]; push_cast; ring)

theorem build_loop_zstep_dvd (n : ℕ) (diff lastdiff seed delta : ℤ)
    (h : (2 : ℤ) ^ (n + 1) ∣ delta) :
    (2 : ℤ) ^ n ∣ (build_loop_zstep diff lastdiff seed delta).2 := by
  obtain ⟨k, hk⟩ := h
  have hdiv : delta / -2 = -(2 ^ n * k) := by
    rw [hk, show ((2 : ℤ) ^ (n + 1) * k) = 2 * (2 ^ n * k) by ring, zdiv_neg_two]
  unfold build_loop_zstep
  split_ifs
  · exact ⟨2 * k, by rw [hk]; ring⟩
  · exact ⟨-(2 * k), by rw [hk]; ring⟩
  · exact ⟨-k, by rw [hdiv]; ring⟩
  · exact ⟨2 * k, by rw [hk]; ring⟩
  · exact ⟨2 * k, by rw [hk]; ring⟩
  · exact ⟨-(2 * k), by rw [hk]; ring⟩
  · exact ⟨-k, by rw [hdiv]; ring⟩
  · exact ⟨2 * k, by rw [hk]; ring⟩
  · exact ⟨2 * k, by rw [hk]; ring⟩

theorem build_loop_zgo_corr {D : ℝ} (hD : 0 < D) (c tol : ℤ) (n : ℕ) :
    ∀ seed delta lastdiff : ℤ, (2 : ℤ) ^ n ∣ delta →
    0 ≤ (build_loop_zgo c tol n seed delta lastdiff).1 →
    build_loop_go (fun x : ℝ => x - (c : ℝ) / D) ((tol : ℝ) / D) n
        ((seed : ℝ) / D) ((delta : ℝ) / D) ((lastdiff : ℝ) / D) =
      (((build_loop_zgo c tol n seed delta lastdiff).1 : ℝ) / D,
       ((build_loop_zgo c tol n seed delta lastdiff).2 : ℝ) / D) := by
  induction n with
  | zero =>
    intro seed delta lastdiff _ h0
    rw [build_loop_zgo_zero] at h0
    norm_num at h0
  | succ n ih =>
    intro seed delta lastdiff hdvd hpos
    have hdiffc : ((seed : ℝ) / D) - (c : ℝ) / D = ((seed - c : ℤ) : ℝ) / D := by
      push_cast; ring
    have habs : |((seed - c : ℤ) : ℝ) / D| =
        (((if seed - c < 0 then -(seed - c) else seed - c) : ℤ) : ℝ) / D := by
      rcases lt_or_le (seed - c) 0 with h | h
      · rw [if_pos h, abs_of_neg (by rw [rho_neg_iff hD]; exact h)]
        push_cast; ring
      · rw [if_neg (not_lt.mpr h), abs_of_nonneg]
        rcases eq_or_lt_of_le h with h' | h'
        · rw [← h']; norm_num
        · exact le_of_lt ((rho_pos_iff hD).mpr h')
    rw [build_loop_go_succ]
    simp only [hdiffc, habs]
    rw [build_loop_zgo_succ] at hpos ⊢
    by_cases hc : (if seed - c < 0 then -(seed - c) else seed - c) ≤ tol
    · rw [if_pos hc, if_pos ((rho_le hD).mpr hc)]
    · rw [if_neg hc] at hpos
      rw [if_neg hc, if_neg (fun h => hc ((rho_le hD).mp h))]
      have h2 : (2 : ℤ) ∣ delta := dvd_trans (dvd_pow_self 2 n.succ_ne_zero) hdvd
      rw [build_loop_zstep_corr hD _ _ _ _ h2]
      exact ih _ _ _ (build_loop_zstep_dvd n _ _ _ _ hdvd) hpos

theorem build_loop_zgo_eval :
    build_loop_zgo (12345 * 10 ^ 28 * 2 ^ 200) (10 ^ 21 * 2 ^ 200) 199 0
      (1745329251994329576923690768489 * 2 ^ 199) 0 =
      (1095564539454213295606722965280551685615490777552253661867135338882805342215864320,
       198376501562676784976201007003909800316085407896870284740402613538132864661117194657784135680) := by
  decide

/-- C8.  Driving `build_loop` with the synthetic residual
`f(x) = x - 1.2345`, seed 0 and tolerance 1e-11, the loop converges: the
returned residual is non-negative (so the -1 fuel-exhaustion sentinel was
not hit and the loop terminated before the 200-iteration cap; in fact the
exact trajectory converges on invocation 198) and is at most 1e-11, and
the final seed is within 1e-11 of 1.2345. -/
theorem build_loop_synthetic_converges :
    0 ≤ (build_loop (fun x : ℝ => x - 1.2345) 0 1e-11).1 ∧
    (build_loop (fun x : ℝ => x - 1.2345) 0 1e-11).1 ≤ 1e-11 ∧
    |(build_loop (fun x : ℝ => x - 1.2345) 0 1e-11).2 - 1.2345| ≤ 1e-11 := by
  have hD : (0 : ℝ) < 10 ^ 32 * 2 ^ 200 := by positivity
  have hcorr := build_loop_zgo_corr (D := 10 ^ 32 * 2 ^ 200) hD
    (12345 * 10 ^ 28 * 2 ^ 200) (10 ^ 21 * 2 ^ 200) 199 0
    (1745329251994329576923690768489 * 2 ^ 199) 0
    ⟨1745329251994329576923690768489, by ring⟩
    (by rw [build_loop_zgo_eval]; positivity)
  rw [build_loop_zgo_eval] at hcorr
  have hc : ((12345 * 10 ^ 28 * 2 ^ 200 : ℤ) : ℝ) / (10 ^ 32 * 2 ^ 200) = 1.2345 := by
    push_cast; norm_num
  have htol : ((10 ^ 21 * 2 ^ 200 : ℤ) : ℝ) / (10 ^ 32 * 2 ^ 200) = 1e-11 := by
    push_cast; norm_num
  have hdel : ((1745329251994329576923690768489 * 2 ^ 199 : ℤ) : ℝ) / (10 ^ 32 * 2 ^ 200) =
      DTR 0.5 := by
    push_cast; norm_num [DTR]
  have h0 : ((0 : ℤ) : ℝ) / (10 ^ 32 * 2 ^ 200) = 0 := by norm_num
  rw [hc, htol, hdel, h0] at hcorr
  rw [build_loop, hcorr]
  push_cast
  norm_num [abs_le]

/-- `asin_clamp`: clamp the argument to [-1, 1], then arcsine.  (The empty
`if` block at the top of the source function is dead code.) -/
noncomputable def asin_clamp (equation : ℝ) : ℝ :=
  Real.arcsin (if equation > 1 then 1 else if equation < -1 then -1 else equation)

/-- The argument the ambiguous branch of `sph_tri_bcC` passes to arcsine
to obtain the candidate angle B: `sin(C)*sin(b) / sin(c)`, unclamped. -/
noncomputable def sph_tri_Barg (b c C : ℝ) : ℝ :=
  Real.sin C * Real.sin b / Real.sin c

/-- The candidate angle `B = asin(sin(C)*sin(b) / sin(c))` of the
ambiguous branch of `sph_tri_bcC`. -/
noncomputable def sph_tri_B1 (b c C : ℝ) : ℝ :=
  Real.arcsin (sph_tri_Barg b c C)

/-- The primary candidate for angle A in the ambiguous branch:
`v = tan((C-B)/2)*sin((c+b)/2)/sin((c-b)/2); A = atan(1/v)*2`. -/
noncomputable def sph_tri_A1 (b c C : ℝ) : ℝ :=
  Real.arctan (1 / (Real.tan ((C - sph_tri_B1 b c C) / 2) *
    Real.sin ((c + b) / 2) / Real.sin ((c - b) / 2))) * 2

/-- The supplementary-candidate angle A in the ambiguous branch, derived
from `B2 = DTR(180) - B`. -/
noncomputable def sph_tri_A2 (b c C : ℝ) : ℝ :=
  Real.arctan (1 / (Real.tan ((C - (DTR 180 - sph_tri_B1 b c C)) / 2) *
    Real.sin ((c + b) / 2) / Real.sin ((c - b) / 2))) * 2

/-- `sph_tri_bcC`: oblique spherical triangle solver from sides b, c and
included angle C (read from `st`), writing angles A, B and side a.
Ambiguous case `b > c && C < DTR(90)`: both candidates are computed and
the supplementary one is selected exactly when the primary A is negative;
the final side is `a = asin(sin(A)*sin(b)/sin(B))` (raw arcsine).
Otherwise: B by clamped arcsine, side a by a Napier analogy, A by the
spherical law of cosines. -/
noncomputable def sph_tri_bcC (st : SPH_TRI) : SPH_TRI :=
  if st.b > st.c ∧ st.C < DTR 90 then
    let B := sph_tri_B1 st.b st.c st.C
    let A := sph_tri_A1 st.b st.c st.C
    let Bf := if A < 0 then DTR 180 - B else B
    let Af := if A < 0 then sph_tri_A2 st.b st.c st.C else A
    { st with
      B := Bf
      A := Af
      a := Real.arcsin (Real.sin Af * Real.sin st.b / Real.sin Bf) }
  else
    let B := asin_clamp (Real.sin st.b * Real.sin st.C / Real.sin st.c)
    let a := 2 * Real.arctan (Real.tan ((st.b + st.c) / 2) *
      Real.cos ((B + st.C) / 2) / Real.cos ((B - st.C) / 2))
    let A := Real.arccos ((Real.cos a - Real.cos st.b * Real.cos st.c) /
      (Real.sin st.b * Real.sin st.c))
    { st with B := B, A := A, a := a }

/-- C4 (amended).  The clamping applies to the unambiguous branch's
arcsine, through `asin_clamp`: arguments above 1 are clamped to 1, below
-1 to -1, in-range arguments pass through unchanged, and in every case the
value actually given to arcsine lies in [-1, 1].  (The ambiguous branch's
arcsines receive raw, unclamped arguments; see the counterexample.) -/
theorem asin_clamp_clamps :
    (∀ x : ℝ, x > 1 → asin_clamp x = Real.arcsin 1) ∧
    (∀ x : ℝ, x < -1 → asin_clamp x = Real.arcsin (-1)) ∧
    (∀ x : ℝ, -1 ≤ x → x ≤ 1 → asin_clamp x = Real.arcsin x) ∧
    (∀ x : ℝ, ∃ y : ℝ, -1 ≤ y ∧ y ≤ 1 ∧ asin_clamp x = Real.arcsin y) := by
  refine ⟨fun x hx => ?_, fun x hx => ?_, fun x h1 h2 => ?_, fun x => ?_⟩
  · rw [asin_clamp, if_pos hx]
  · rw [asin_clamp, if_neg (by linarith), if_pos hx]
  · rw [asin_clamp, if_neg (by linarith), if_neg (by linarith)]
  · unfold asin_clamp
    split_ifs with h1 h2
    · exact ⟨1, by norm_num⟩
    · exact ⟨-1, by norm_num⟩
    · exact ⟨x, by push_neg at h1 h2; exact ⟨h2, h1, rfl⟩⟩

theorem asin_clamp_clamps_witness :
    asin_clamp 2 = Real.arcsin 1 ∧ asin_clamp (-2 : ℝ) = Real.arcsin (-1) ∧
    asin_clamp (1 / 2 : ℝ) = Real.arcsin (1 / 2) :=
  ⟨asin_clamp_clamps.1 2 (by norm_num),
   asin_clamp_clamps.2.1 (-2) (by norm_num),
   asin_clamp_clamps.2.2.1 (1 / 2) (by norm_num) (by norm_num)⟩

/-- C4 (counterexample).  At b = DTR 60, c = DTR 30, C = DTR 60 the
ambiguous branch of `sph_tri_bcC` is taken (b > c and C < DTR 90) and the
argument `sin(C)*sin(b)/sin(c)` passed to the raw arcsine there exceeds 1
(it is about 1.5), so not every arcsine input inside the solver is clamped
to [-1, 1] before the call. -/
theorem sph_tri_bcC_unclamped_asin_arg :
    (DTR 60 > DTR (30 : ℝ) ∧ DTR 60 < DTR (90 : ℝ)) ∧
    1 < sph_tri_Barg (DTR 60) (DTR 30) (DTR 60) := by
  have hpi3 : (3 : ℝ) < π := Real.pi_gt_three
  have h30pos : (0 : ℝ) < DTR 30 := by norm_num [DTR]
  have h30pi : DTR (30 : ℝ) < π := by
    have : DTR (30 : ℝ) < 3 := by norm_num [DTR]
    linarith
  have hsin30_pos : 0 < Real.sin (DTR 30) := Real.sin_pos_of_pos_of_lt_pi h30pos h30pi
  have hsin30_ub : Real.sin (DTR 30) < DTR 30 := Real.sin_lt h30pos
  have hone_mem : (1 : ℝ) ∈ Set.Icc (-(π / 2)) (π / 2) := by
    constructor <;> [linarith; linarith]
  have h60_mem : DTR (60 : ℝ) ∈ Set.Icc (-(π / 2)) (π / 2) := by
    have h1 : (0 : ℝ) < DTR 60 := by norm_num [DTR]
    have h2 : DTR (60 : ℝ) < 1.05 := by norm_num [DTR]
    constructor <;> [linarith; linarith]
  have hsin1 : (3 : ℝ) / 4 < Real.sin 1 := by
    have := Real.sin_gt_sub_cube (by norm_num : (0:ℝ) < 1) (le_refl 1)
    norm_num at this
    linarith
  have hsin60 : (3 : ℝ) / 4 < Real.sin (DTR 60) := by
    have hmono := Real.strictMonoOn_sin hone_mem h60_mem
      (by norm_num [DTR] : (1 : ℝ) < DTR 60)
    linarith
  refine ⟨⟨by norm_num [DTR], by norm_num [DTR]⟩, ?_⟩
  rw [sph_tri_Barg, one_lt_div hsin30_pos]
  have h30small : DTR (30 : ℝ) < 9 / 16 := by norm_num [DTR]
  nlinarith

/-- C2 helper: at b = DTR 50, c = DTR 40, C = DTR 30 the computed
candidate B lies strictly between DTR 30 and π/2. -/
theorem sph_tri_B1_concrete_bounds :
    DTR 30 < sph_tri_B1 (DTR 50) (DTR 40) (DTR 30) ∧
    sph_tri_B1 (DTR 50) (DTR 40) (DTR 30) ≤ π / 2 := by
  have hpi3 : (3 : ℝ) < π := Real.pi_gt_three
  have h30pos : (0 : ℝ) < DTR 30 := by norm_num [DTR]
  have h40pos : (0 : ℝ) < DTR 40 := by norm_num [DTR]
  have h50pos : (0 : ℝ) < DTR 50 := by norm_num [DTR]
  have h30ub : DTR (30 : ℝ) < 0.524 := by norm_num [DTR]
  have h40ub : DTR (40 : ℝ) < 0.699 := by norm_num [DTR]
  have h50ub : DTR (50 : ℝ) < 0.873 := by norm_num [DTR]
  have hsin30_pos : 0 < Real.sin (DTR 30) :=
    Real.sin_pos_of_pos_of_lt_pi h30pos (by linarith)
  have hsin40_pos : 0 < Real.sin (DTR 40) :=
    Real.sin_pos_of_pos_of_lt_pi h40pos (by linarith)
  have h40mem : DTR (40 : ℝ) ∈ Set.Icc (-(π / 2)) (π / 2) := by
    constructor <;> [linarith; linarith]
  have h50mem : DTR (50 : ℝ) ∈ Set.Icc (-(π / 2)) (π / 2) := by
    constructor <;> [linarith; linarith]
  have hsin_mono : Real.sin (DTR 40) < Real.sin (DTR 50) :=
    Real.strictMonoOn_sin h40mem h50mem (by norm_num [DTR])
  -- lower bound on sin (DTR 40) and upper bound on sin (DTR 30)
  have hsin40_lb : (0.61 : ℝ) < Real.sin (DTR 40) := by
    have h := Real.sin_gt_sub_cube h40pos (by norm_num [DTR] : DTR (40:ℝ) ≤ 1)
    have h2 : (0.61 : ℝ) < DTR 40 - DTR 40 ^ 3 / 4 := by norm_num [DTR]
    linarith
  have hsin30_ub : Real.sin (DTR 30) < 0.524 := by
    have := Real.sin_lt h30pos; linarith
  -- the arcsine argument r
  have hr_gt : Real.sin (DTR 30) < sph_tri_Barg (DTR 50) (DTR 40) (DTR 30) := by
    rw [sph_tri_Barg, mul_div_assoc]
    have hgt1 : 1 < Real.sin (DTR 50) / Real.sin (DTR 40) :=
      (one_lt_div hsin40_pos).mpr hsin_mono
    nlinarith
  have hr_le : sph_tri_Barg (DTR 50) (DTR 40) (DTR 30) ≤ 1 := by
    rw [sph_tri_Barg, div_le_one hsin40_pos]
    have hs50 : Real.sin (DTR 50) ≤ 1 := Real.sin_le_one _
    nlinarith
  constructor
  · have harc : Real.arcsin (Real.sin (DTR 30)) = DTR 30 :=
      Real.arcsin_sin (by linarith) (by linarith)
    have hmem1 : Real.sin (DTR 30) ∈ Set.Icc (-1 : ℝ) 1 :=
      ⟨Real.neg_one_le_sin _, Real.sin_le_one _⟩
    have hmem2 : sph_tri_Barg (DTR 50) (DTR 40) (DTR 30) ∈ Set.Icc (-1 : ℝ) 1 :=
      ⟨by linarith, hr_le⟩
    have := Real.strictMonoOn_arcsin hmem1 hmem2 hr_gt
    rw [harc] at this
    exact this
  · exact Real.arcsin_le_pi_div_two _

/-- C2 helper: the primary candidate A is strictly positive at
b = DTR 50, c = DTR 40, C = DTR 30. -/
theorem sph_tri_A1_concrete_pos : 0 < sph_tri_A1 (DTR 50) (DTR 40) (DTR 30) := by
  obtain ⟨hBgt, hBle⟩ := sph_tri_B1_concrete_bounds
  have hpi3 : (3 : ℝ) < π := Real.pi_gt_three
  have h30pos : (0 : ℝ) < DTR 30 := by norm_num [DTR]
  set B := sph_tri_B1 (DTR 50) (DTR 40) (DTR 30) with hB
  -- the half-angle argument of the primary candidate
  have hx_neg : (DTR 30 - B) / 2 < 0 := by linarith
  have hx_gt : -(π / 2) < (DTR 30 - B) / 2 := by linarith
  have htan : Real.tan ((DTR 30 - B) / 2) < 0 := by
    rw [Real.tan_eq_sin_div_cos]
    refine div_neg_of_neg_of_pos ?_ ?_
    · exact Real.sin_neg_of_neg_of_neg_pi_lt hx_neg (by linarith)
    · exact Real.cos_pos_of_mem_Ioo ⟨hx_gt, by linarith⟩
  have hsin_cb : 0 < Real.sin ((DTR 40 + DTR 50) / 2) := by
    refine Real.sin_pos_of_pos_of_lt_pi (by norm_num [DTR]) ?_
    have : (DTR 40 + DTR 50) / 2 < (0.79 : ℝ) := by norm_num [DTR]
    linarith
  have hsin_cmb : Real.sin ((DTR 40 - DTR 50) / 2) < 0 := by
    refine Real.sin_neg_of_neg_of_neg_pi_lt (by norm_num [DTR]) ?_
    have : (-0.1 : ℝ) < (DTR 40 - DTR 50) / 2 := by norm_num [DTR]
    linarith
  have hv : 0 < Real.tan ((DTR 30 - B) / 2) * Real.sin ((DTR 40 + DTR 50) / 2) /
      Real.sin ((DTR 40 - DTR 50) / 2) :=
    div_pos_of_neg_of_neg (mul_neg_of_neg_of_pos htan hsin_cb) hsin_cmb
  have harct : 0 < Real.arctan (1 / (Real.tan ((DTR 30 - B) / 2) *
      Real.sin ((DTR 40 + DTR 50) / 2) / Real.sin ((DTR 40 - DTR 50) / 2))) := by
    have := Real.arctan_strictMono (one_div_pos.mpr hv)
    rwa [Real.arctan_zero] at this
  rw [sph_tri_A1, ← hB]
  linarith

/-- C2 helper: the supplementary candidate A is also strictly positive at
b = DTR 50, c = DTR 40, C = DTR 30. -/
theorem sph_tri_A2_concrete_pos : 0 < sph_tri_A2 (DTR 50) (DTR 40) (DTR 30) := by
  obtain ⟨hBgt, hBle⟩ := sph_tri_B1_concrete_bounds
  have hpi3 : (3 : ℝ) < π := Real.pi_gt_three
  have hpi4 : π < 4 := Real.pi_lt_four
  set B := sph_tri_B1 (DTR 50) (DTR 40) (DTR 30) with hB
  -- the half-angle argument of the supplementary candidate
  have h180 : (3.14159 : ℝ) < DTR 180 := by norm_num [DTR]
  have h180ub : DTR (180 : ℝ) < 3.1416 := by norm_num [DTR]
  have h30ub : DTR (30 : ℝ) < 0.524 := by norm_num [DTR]
  have h30lb : (0.523 : ℝ) < DTR 30 := by norm_num [DTR]
  have h30pos : (0 : ℝ) < DTR 30 := by norm_num [DTR]
  have hx_neg : (DTR 30 - (DTR 180 - B)) / 2 < 0 := by linarith
  have hx_gt : -(π / 2) < (DTR 30 - (DTR 180 - B)) / 2 := by linarith
  have htan : Real.tan ((DTR 30 - (DTR 180 - B)) / 2) < 0 := by
    rw [Real.tan_eq_sin_div_cos]
    refine div_neg_of_neg_of_pos ?_ ?_
    · exact Real.sin_neg_of_neg_of_neg_pi_lt hx_neg (by linarith)
    · exact Real.cos_pos_of_mem_Ioo ⟨hx_gt, by linarith⟩
  have hsin_cb : 0 < Real.sin ((DTR 40 + DTR 50) / 2) := by
    refine Real.sin_pos_of_pos_of_lt_pi (by norm_num [DTR]) ?_
    have : (DTR 40 + DTR 50) / 2 < (0.79 : ℝ) := by norm_num [DTR]
    linarith
  have hsin_cmb : Real.sin ((DTR 40 - DTR 50) / 2) < 0 := by
    refine Real.sin_neg_of_neg_of_neg_pi_lt (by norm_num [DTR]) ?_
    have : (-0.1 : ℝ) < (DTR 40 - DTR 50) / 2 := by norm_num [DTR]
    linarith
  have hv : 0 < Real.tan ((DTR 30 - (DTR 180 - B)) / 2) *
      Real.sin ((DTR 40 + DTR 50) / 2) / Real.sin ((DTR 40 - DTR 50) / 2) :=
    div_pos_of_neg_of_neg (mul_neg_of_neg_of_pos htan hsin_cb) hsin_cmb
  have harct : 0 < Real.arctan (1 / (Real.tan ((DTR 30 - (DTR 180 - B)) / 2) *
      Real.sin ((DTR 40 + DTR 50) / 2) / Real.sin ((DTR 40 - DTR 50) / 2))) := by
    have := Real.arctan_strictMono (one_div_pos.mpr hv)
    rwa [Real.arctan_zero] at this
  rw [sph_tri_A2, ← hB]
  linarith

/-- C2 (counterexample).  At b = DTR 50, c = DTR 40, C = DTR 30 the
ambiguous branch applies and the supplementary-candidate angle A2 is
strictly positive (about 9.25 degrees), contradicting the claim that the
alternate branch's A is strictly negative there. -/
theorem sph_tri_A2_pos_at_spec_input :
    (DTR 50 > DTR (40 : ℝ) ∧ DTR 30 < DTR (90 : ℝ)) ∧
    0 < sph_tri_A2 (DTR 50) (DTR 40) (DTR 30) :=
  ⟨⟨by norm_num [DTR], by norm_num [DTR]⟩, sph_tri_A2_concrete_pos⟩

/-- C2 (amended).  For every input with b > c and C < DTR 90 the solver
computes candidate B = arcsin(sin C · sin b / sin c) and its supplement
DTR 180 - B, derives A for each candidate by the Napier half-angle tangent
relation with (C-B)/2 and (c±b)/2, selects the supplementary candidate
exactly when the primary A is negative, and sets side
a = arcsin(sin A · sin b / sin B) from the selected pair.  At the spec's
input b = DTR 50, c = DTR 40, C = DTR 30 the primary candidate's A is
positive, so it is selected — but the alternate candidate's A is positive
as well (not strictly negative as claimed). -/
theorem sph_tri_bcC_ambiguous_case :
    (∀ st : SPH_TRI, st.b > st.c → st.C < DTR 90 →
      (sph_tri_bcC st).B = (if sph_tri_A1 st.b st.c st.C < 0
          then DTR 180 - sph_tri_B1 st.b st.c st.C else sph_tri_B1 st.b st.c st.C) ∧
      (sph_tri_bcC st).A = (if sph_tri_A1 st.b st.c st.C < 0
          then sph_tri_A2 st.b st.c st.C else sph_tri_A1 st.b st.c st.C) ∧
      (sph_tri_bcC st).a = Real.arcsin (Real.sin (sph_tri_bcC st).A * Real.sin st.b /
          Real.sin (sph_tri_bcC st).B)) ∧
    (0 ≤ sph_tri_A1 (DTR 50) (DTR 40) (DTR 30) ∧
     (sph_tri_bcC ⟨0, DTR 50, DTR 40, 0, 0, DTR 30⟩).A =
       sph_tri_A1 (DTR 50) (DTR 40) (DTR 30)) := by
  constructor
  · intro st h1 h2
    rw [sph_tri_bcC, if_pos ⟨h1, h2⟩]
    exact ⟨rfl, rfl, rfl⟩
  · refine ⟨le_of_lt sph_tri_A1_concrete_pos, ?_⟩
    rw [sph_tri_bcC, if_pos ⟨by norm_num [DTR], by norm_num [DTR]⟩]
    simp only [if_neg (not_lt.mpr (le_of_lt sph_tri_A1_concrete_pos))]

theorem sph_tri_bcC_ambiguous_case_witness :
    (sph_tri_bcC ⟨0, DTR 50, DTR 40, 0, 0, DTR 30⟩).a =
      Real.arcsin (Real.sin (sph_tri_bcC ⟨0, DTR 50, DTR 40, 0, 0, DTR 30⟩).A *
        Real.sin (DTR 50) /
        Real.sin (sph_tri_bcC ⟨0, DTR 50, DTR 40, 0, 0, DTR 30⟩).B) :=
  (sph_tri_bcC_ambiguous_case.1 ⟨0, DTR 50, DTR 40, 0, 0, DTR 30⟩
    (by norm_num [DTR]) (by norm_num [DTR])).2.2

/-- C9.  When the recovered radius sqrt(x²+y²+z²) is at most the epsilon
`ZERO` = 1e-14, `gut_cartesian_to_spherical` is a degenerate no-op for the
angular fields: it returns early leaving inclination and azimuth at their
prior values (the radius field itself has already been written). -/
theorem gut_cartesian_to_spherical_degenerate (p : GUT_POINT)
    (s : GUT_SPHERICAL_COORD)
    (h : Real.sqrt (p.x * p.x + p.y * p.y + p.z * p.z) ≤ ZERO) :
    (gut_cartesian_to_spherical p s).inclination = s.inclination ∧
    (gut_cartesian_to_spherical p s).azimuth = s.azimuth ∧
    (gut_cartesian_to_spherical p s).radius =
      Real.sqrt (p.x * p.x + p.y * p.y + p.z * p.z) := by
  have habs : |Real.sqrt (p.x * p.x + p.y * p.y + p.z * p.z)| =
      Real.sqrt (p.x * p.x + p.y * p.y + p.z * p.z) :=
    abs_of_nonneg (Real.sqrt_nonneg _)
  rw [gut_cartesian_to_spherical]
  simp only [habs, if_neg (not_lt.mpr h)]
  exact ⟨trivial, trivial, trivial⟩

theorem gut_cartesian_to_spherical_degenerate_witness :
    (gut_cartesian_to_spherical ⟨0, 0, 0, 0⟩ ⟨5, 6, 7⟩).inclination = 7 ∧
    (gut_cartesian_to_spherical ⟨0, 0, 0, 0⟩ ⟨5, 6, 7⟩).azimuth = 6 := by
  have h := gut_cartesian_to_spherical_degenerate ⟨0, 0, 0, 0⟩ ⟨5, 6, 7⟩
    (by norm_num [ZERO, Real.sqrt_zero])
  exact ⟨h.1, h.2.1⟩

/-- C5 (amended).  For every input point of radius above `ZERO` = 1e-14
the azimuth follows the source's quadrant table, which contains one row
the claim omits: when x > 0 (with |x| above the epsilon) and |y| is within
the epsilon the azimuth is the constant 0, not atan(y/x); in the remaining
x > 0 cases it is atan(y/x), and the x ≈ 0 and x < 0 rows are exactly as
claimed. -/
theorem gut_cartesian_to_spherical_azimuth_table (p : GUT_POINT)
    (s : GUT_SPHERICAL_COORD)
    (h : ZERO < Real.sqrt (p.x * p.x + p.y * p.y + p.z * p.z)) :
    (gut_cartesian_to_spherical p s).azimuth =
      if |p.x| ≤ ZERO then
        if |p.y| ≤ ZERO then 0
        else if p.y > 0 then DTR 90
        else DTR (-90)
      else if p.x > 0 then
        if |p.y| ≤ ZERO then 0
        else Real.arctan (p.y / p.x)
      else
        if |p.y| ≤ ZERO then DTR 180
        else if p.y > 0 then DTR 180 + Real.arctan (p.y / p.x)
        else DTR (-180) + Real.arctan (p.y / p.x) := by
  have habs : |Real.sqrt (p.x * p.x + p.y * p.y + p.z * p.z)| =
      Real.sqrt (p.x * p.x + p.y * p.y + p.z * p.z) :=
    abs_of_nonneg (Real.sqrt_nonneg _)
  rw [gut_cartesian_to_spherical]
  simp only [habs, if_pos h]
  split_ifs <;> rfl

theorem gut_cartesian_to_spherical_azimuth_table_witness :
    (gut_cartesian_to_spherical ⟨0, 0, 1, 0⟩ ⟨0, 0, 0⟩).azimuth = 0 := by
  have h := gut_cartesian_to_spherical_azimuth_table ⟨0, 0, 1, 0⟩ ⟨0, 0, 0⟩
    (by norm_num [ZERO, Real.sqrt_one])
  norm_num [ZERO] at h
  exact h

/-- C5 (counterexample).  At p = (1, 1e-15, 0) the radius exceeds 1e-14,
yet the azimuth computed by the code is the constant 0 while the claim's
quadrant table (x > 0 gives atan(y/x)) demands atan(1e-15/1), which is
nonzero: the claim misses the source's `x > 0, |y| <= ZERO` row. -/
theorem gut_cartesian_to_spherical_xpos_ysmall :
    ZERO < Real.sqrt ((1 : ℝ) * 1 + 1e-15 * 1e-15 + 0 * 0) ∧
    (gut_cartesian_to_spherical ⟨1, 1e-15, 0, 0⟩ ⟨0, 0, 0⟩).azimuth = 0 ∧
    Real.arctan ((1e-15 : ℝ) / 1) ≠ 0 := by
  have harg : (1 : ℝ) ≤ (1 : ℝ) * 1 + 1e-15 * 1e-15 + 0 * 0 := by norm_num
  have hr : (1 : ℝ) ≤ Real.sqrt ((1 : ℝ) * 1 + 1e-15 * 1e-15 + 0 * 0) := by
    have := Real.sqrt_le_sqrt harg
    rwa [Real.sqrt_one] at this
  have hZ : ZERO < Real.sqrt ((1 : ℝ) * 1 + 1e-15 * 1e-15 + 0 * 0) := by
    have : ZERO < (1 : ℝ) := by norm_num [ZERO]
    linarith
  refine ⟨hZ, ?_, ?_⟩
  · simp only [gut_cartesian_to_spherical]
    split_ifs <;>
      first
        | rfl
        | (exfalso; norm_num [ZERO, abs_of_nonneg] at *)
  · rw [ne_eq, Real.arctan_eq_zero_iff]
    norm_num

/-- Dot product of the i,j,k components of two vectors (proof-side
vocabulary for the orthonormality arguments; not a source function). -/
def dotv (a b : GUT_VECTOR) : ℝ := a.i * b.i + a.j * b.j + a.k * b.k

/-- The x axis of the local frame built by `build_subface_transforms` and
`rotation_matrix_from_triangle`: the first edge vector, normalized. -/
noncomputable def frameX (u : GUT_VECTOR) : GUT_VECTOR := gut_normalize_vector u

/-- The z axis of the local frame: cross product of the normalized edge
vectors, normalized. -/
noncomputable def frameZ (u v : GUT_VECTOR) : GUT_VECTOR :=
  gut_normalize_vector (gut_cross_product (frameX u) (gut_normalize_vector v))

/-- The y axis of the local frame: the re-orthogonalizing second cross
product `z x x`, normalized. -/
noncomputable def frameY (u v : GUT_VECTOR) : GUT_VECTOR :=
  gut_normalize_vector (gut_cross_product (frameZ u v) (frameX u))

/-- `build_rotation_matrix` / the matrix assembly inside
`rotation_matrix_from_triangle`: columns are the frame axes, last row and
column affine. -/
def mtx_from_frame (x y z : GUT_VECTOR) : Mtx :=
  ⟨x.i, y.i, z.i, 0, x.j, y.j, z.j, 0, x.k, y.k, z.k, 0, 0, 0, 0, 1⟩

theorem dotv_comm (a b : GUT_VECTOR) : dotv a b = dotv b a := by
  simp only [dotv]; ring

theorem dotv_cross_left (a b : GUT_VECTOR) :
    dotv a (gut_cross_product a b) = 0 := by
  simp only [dotv, gut_cross_product]; ring

theorem dotv_cross_right (a b : GUT_VECTOR) :
    dotv a (gut_cross_product b a) = 0 := by
  simp only [dotv, gut_cross_product]; ring

theorem dotv_cross_cross (a b : GUT_VECTOR) :
    dotv (gut_cross_product a b) (gut_cross_product a b) =
      dotv a a * dotv b b - dotv a b * dotv a b := by
  simp only [dotv, gut_cross_product]; ring

theorem dotv_normalize_right (a c : GUT_VECTOR) :
    dotv a (gut_normalize_vector c) =
      dotv a c / Real.sqrt (c.i * c.i + c.j * c.j + c.k * c.k) := by
  simp only [dotv, gut_normalize_vector]
  ring

theorem dotv_cross_normalize (u v : GUT_VECTOR) :
    dotv (gut_cross_product (gut_normalize_vector u) (gut_normalize_vector v))
      (gut_cross_product (gut_normalize_vector u) (gut_normalize_vector v)) =
    dotv (gut_cross_product u v) (gut_cross_product u v) /
      (Real.sqrt (u.i * u.i + u.j * u.j + u.k * u.k) *
        Real.sqrt (u.i * u.i + u.j * u.j + u.k * u.k) *
       (Real.sqrt (v.i * v.i + v.j * v.j + v.k * v.k) *
        Real.sqrt (v.i * v.i + v.j * v.j + v.k * v.k))) := by
  simp only [dotv, gut_cross_product, gut_normalize_vector]
  ring

theorem normalized_dot_self (u : GUT_VECTOR) (hu : 0 < dotv u u) :
    dotv (gut_normalize_vector u) (gut_normalize_vector u) = 1 := by
  simp only [dotv] at hu
  have hd := Real.mul_self_sqrt (le_of_lt hu)
  simp only [gut_normalize_vector, dotv]
  rw [div_mul_div_comm, div_mul_div_comm, div_mul_div_comm, div_add_div_same,
    div_add_div_same, hd]
  exact div_self (ne_of_gt hu)

/-- The frame construction yields an orthonormal triple (x, y, z) provided
the two edge vectors and their cross product are nonzero. -/
theorem frame_orthonormal (u v : GUT_VECTOR)
    (hu : 0 < dotv u u) (hv : 0 < dotv v v)
    (hc : 0 < dotv (gut_cross_product u v) (gut_cross_product u v)) :
    dotv (frameX u) (frameX u) = 1 ∧
    dotv (frameY u v) (frameY u v) = 1 ∧
    dotv (frameZ u v) (frameZ u v) = 1 ∧
    dotv (frameX u) (frameY u v) = 0 ∧
    dotv (frameX u) (frameZ u v) = 0 ∧
    dotv (frameY u v) (frameZ u v) = 0 := by
  have hu' : (0 : ℝ) < u.i * u.i + u.j * u.j + u.k * u.k := hu
  have hv' : (0 : ℝ) < v.i * v.i + v.j * v.j + v.k * v.k := hv
  have hdu : 0 < Real.sqrt (u.i * u.i + u.j * u.j + u.k * u.k) :=
    Real.sqrt_pos.mpr hu'
  have hdv : 0 < Real.sqrt (v.i * v.i + v.j * v.j + v.k * v.k) :=
    Real.sqrt_pos.mpr hv'
  have hcn : 0 < dotv (gut_cross_product (frameX u) (gut_normalize_vector v))
      (gut_cross_product (frameX u) (gut_normalize_vector v)) := by
    rw [frameX, dotv_cross_normalize]
    exact div_pos hc (mul_pos (mul_pos hdu hdu) (mul_pos hdv hdv))
  have hxx : dotv (frameX u) (frameX u) = 1 := normalized_dot_self u hu
  have hzz : dotv (frameZ u v) (frameZ u v) = 1 := normalized_dot_self _ hcn
  have hxz : dotv (frameX u) (frameZ u v) = 0 := by
    rw [frameZ, dotv_normalize_right, dotv_cross_left, zero_div]
  have hzx : dotv (frameZ u v) (frameX u) = 0 := by
    rw [dotv_comm]; exact hxz
  have hc2 : dotv (gut_cross_product (frameZ u v) (frameX u))
      (gut_cross_product (frameZ u v) (frameX u)) = 1 := by
    rw [dotv_cross_cross, hzz, hxx, hzx]; norm_num
  have hyy : dotv (frameY u v) (frameY u v) = 1 :=
    normalized_dot_self _ (by rw [hc2]; norm_num)
  have hxy : dotv (frameX u) (frameY u v) = 0 := by
    rw [frameY, dotv_normalize_right, dotv_cross_right, zero_div]
  have hyz : dotv (frameY u v) (frameZ u v) = 0 := by
    rw [dotv_comm, frameY, dotv_normalize_right, dotv_cross_left, zero_div]
  exact ⟨hxx, hyy, hzz, hxy, hxz, hyz⟩

/-- Column orthonormality of a frame implies row orthonormality, through
`Matrix.mul_eq_one_comm` on the 3x3 rotation block. -/
theorem frame_rows (x y z : GUT_VECTOR)
    (hxx : dotv x x = 1) (hyy : dotv y y = 1) (hzz : dotv z z = 1)
    (hxy : dotv x y = 0) (hxz : dotv x z = 0) (hyz : dotv y z = 0) :
    (x.i * x.i + y.i * y.i + z.i * z.i = 1) ∧
    (x.j * x.j + y.j * y.j + z.j * z.j = 1) ∧
    (x.k * x.k + y.k * y.k + z.k * z.k = 1) ∧
    (x.i * x.j + y.i * y.j + z.i * z.j = 0) ∧
    (x.i * x.k + y.i * y.k + z.i * z.k = 0) ∧
    (x.j * x.k + y.j * y.k + z.j * z.k = 0) := by
  simp only [dotv] at hxx hyy hzz hxy hxz hyz
  set M : Matrix (Fin 3) (Fin 3) ℝ :=
    !![x.i, y.i, z.i; x.j, y.j, z.j; x.k, y.k, z.k] with hM
  set N : Matrix (Fin 3) (Fin 3) ℝ :=
    !![x.i, x.j, x.k; y.i, y.j, y.k; z.i, z.j, z.k] with hN
  have hcols : N * M = 1 := by
    ext r s
    fin_cases r <;> fin_cases s <;>
      simp [hM, hN, Matrix.mul_apply, Fin.sum_univ_three, Matrix.one_apply] <;>
      first
        | linear_combination hxx
        | linear_combination hyy
        | linear_combination hzz
        | linear_combination hxy
        | linear_combination hxz
        | linear_combination hyz
  have hrows : M * N = 1 := Matrix.mul_eq_one_comm.mp hcols
  have key : ∀ r s : Fin 3, (M * N) r s = (1 : Matrix (Fin 3) (Fin 3) ℝ) r s := by
    intro r s; rw [hrows]
  have h00 := key 0 0
  have h11 := key 1 1
  have h22 := key 2 2
  have h01 := key 0 1
  have h02 := key 0 2
  have h12 := key 1 2
  simp [hM, hN, Matrix.mul_apply, Fin.sum_univ_three, Matrix.one_apply]
    at h00 h11 h22 h01 h02 h12
  exact ⟨by linear_combination h00, by linear_combination h11, by linear_combination h22,
    by linear_combination h01, by linear_combination h02, by linear_combination h12⟩

/-- Squared Cartesian norm of a point's x,y,z (proof-side vocabulary). -/
def nsq (p : GUT_POINT) : ℝ := p.x * p.x + p.y * p.y + p.z * p.z

/-- Applying a frame matrix and then its transpose returns the point
(needs row orthonormality). -/
theorem frame_cancel_mt (x y z : GUT_VECTOR) (p : GUT_POINT)
    (r1 : x.i * x.i + y.i * y.i + z.i * z.i = 1)
    (r2 : x.j * x.j + y.j * y.j + z.j * z.j = 1)
    (r3 : x.k * x.k + y.k * y.k + z.k * z.k = 1)
    (r4 : x.i * x.j + y.i * y.j + z.i * z.j = 0)
    (r5 : x.i * x.k + y.i * y.k + z.i * z.k = 0)
    (r6 : x.j * x.k + y.j * y.k + z.j * z.k = 0) :
    mtx_vec4_multiply (mtx_vec4_multiply p (mtx_from_frame x y z))
      (mtx_transpose_matrix (mtx_from_frame x y z)) = p := by
  ext
  · simp only [mtx_vec4_multiply, mtx_from_frame, mtx_transpose_matrix]
    linear_combination p.x * r1 + p.y * r4 + p.z * r5
  · simp only [mtx_vec4_multiply, mtx_from_frame, mtx_transpose_matrix]
    linear_combination p.x * r4 + p.y * r2 + p.z * r6
  · simp only [mtx_vec4_multiply, mtx_from_frame, mtx_transpose_matrix]
    linear_combination p.x * r5 + p.y * r6 + p.z * r3
  · simp only [mtx_vec4_multiply, mtx_from_frame, mtx_transpose_matrix]
    ring

/-- Applying the transpose of a frame matrix and then the matrix itself
returns the point (needs column orthonormality). -/
theorem frame_cancel_tm (x y z : GUT_VECTOR) (p : GUT_POINT)
    (hxx : dotv x x = 1) (hyy : dotv y y = 1) (hzz : dotv z z = 1)
    (hxy : dotv x y = 0) (hxz : dotv x z = 0) (hyz : dotv y z = 0) :
    mtx_vec4_multiply (mtx_vec4_multiply p (mtx_transpose_matrix (mtx_from_frame x y z)))
      (mtx_from_frame x y z) = p := by
  simp only [dotv] at hxx hyy hzz hxy hxz hyz
  ext
  · simp only [mtx_vec4_multiply, mtx_from_frame, mtx_transpose_matrix]
    linear_combination p.x * hxx + p.y * hxy + p.z * hxz
  · simp only [mtx_vec4_multiply, mtx_from_frame, mtx_transpose_matrix]
    linear_combination p.x * hxy + p.y * hyy + p.z * hyz
  · simp only [mtx_vec4_multiply, mtx_from_frame, mtx_transpose_matrix]
    linear_combination p.x * hxz + p.y * hyz + p.z * hzz
  · simp only [mtx_vec4_multiply, mtx_from_frame, mtx_transpose_matrix]
    ring

/-- A frame matrix preserves the squared norm (row orthonormality). -/
theorem frame_nsq (x y z : GUT_VECTOR) (p : GUT_POINT)
    (r1 : x.i * x.i + y.i * y.i + z.i * z.i = 1)
    (r2 : x.j * x.j + y.j * y.j + z.j * z.j = 1)
    (r3 : x.k * x.k + y.k * y.k + z.k * z.k = 1)
    (r4 : x.i * x.j + y.i * y.j + z.i * z.j = 0)
    (r5 : x.i * x.k + y.i * y.k + z.i * z.k = 0)
    (r6 : x.j * x.k + y.j * y.k + z.j * z.k = 0) :
    nsq (mtx_vec4_multiply p (mtx_from_frame x y z)) = nsq p := by
  simp only [nsq, mtx_vec4_multiply, mtx_from_frame]
  linear_combination p.x * p.x * r1 + p.y * p.y * r2 +
    p.z * p.z * r3 + 2 * p.x * p.y * r4 + 2 * p.x * p.z * r5 + 2 * p.y * p.z * r6

/-- The transpose of a frame matrix preserves the squared norm (column
orthonormality). -/
theorem frame_nsq_t (x y z : GUT_VECTOR) (p : GUT_POINT)
    (hxx : dotv x x = 1) (hyy : dotv y y = 1) (hzz : dotv z z = 1)
    (hxy : dotv x y = 0) (hxz : dotv x z = 0) (hyz : dotv y z = 0) :
    nsq (mtx_vec4_multiply p (mtx_transpose_matrix (mtx_from_frame x y z))) = nsq p := by
  simp only [dotv] at hxx hyy hzz hxy hxz hyz
  simp only [nsq, mtx_vec4_multiply, mtx_from_frame, mtx_transpose_matrix]
  linear_combination p.x * p.x * hxx + p.y * p.y * hyy + p.z * p.z * hzz +
    2 * p.x * p.y * hxy + 2 * p.x * p.z * hxz + 2 * p.y * p.z * hyz

/-- The three equilateral-triangle corner points of
`build_subface_transforms` (their `w`/padding slots are uninitialized in C
and never read; fixed to 0 here). -/
noncomputable def sf_p0 : GUT_POINT := ⟨0.5, -(Real.sqrt 3) / 6, 0, 0⟩

noncomputable def sf_p1 : GUT_POINT := ⟨0, Real.sqrt 3 / 3, 0, 0⟩

noncomputable def sf_p2 : GUT_POINT := ⟨-0.5, -(Real.sqrt 3) / 6, 0, 0⟩

/-- Edge vectors of the 120-degree sub-triangle frame (`m1`):
`gut_vector(&p[0], &p[1], &vx)` and `gut_vector(&p[0], &p[2], &vy)`. -/
noncomputable def m1_u : GUT_VECTOR := gut_vector sf_p0 sf_p1

noncomputable def m1_v : GUT_VECTOR := gut_vector sf_p0 sf_p2

/-- `pgm->face.m1` as built by `build_subface_transforms` (z rotation for
120 degrees), through the normalize/cross/normalize chain and
`build_rotation_matrix`. -/
noncomputable def face_m1 : Mtx :=
  mtx_from_frame (frameX m1_u) (frameY m1_u m1_v) (frameZ m1_u m1_v)

/-- `pgm->face.mt1`: the transpose of `face_m1`. -/
noncomputable def face_mt1 : Mtx := mtx_transpose_matrix face_m1

/-- Edge vectors of the 240-degree sub-triangle frame (`m2`). -/
noncomputable def m2_u : GUT_VECTOR := gut_vector sf_p1 sf_p2

noncomputable def m2_v : GUT_VECTOR := gut_vector sf_p1 sf_p0

/-- `pgm->face.m2` (z rotation for 240 degrees). -/
noncomputable def face_m2 : Mtx :=
  mtx_from_frame (frameX m2_u) (frameY m2_u m2_v) (frameZ m2_u m2_v)

/-- `pgm->face.mt2`: the transpose of `face_m2`. -/
noncomputable def face_mt2 : Mtx := mtx_transpose_matrix face_m2

/-- The x-axis mirror `mx` built at the top of `build_a_transforms`. -/
def mxMirror : Mtx := mtx_create_scale_matrix (-1) 1 1

theorem sqrt3_mul_self : Real.sqrt 3 * Real.sqrt 3 = 3 :=
  Real.mul_self_sqrt (by norm_num)

theorem m1_u_dot : dotv m1_u m1_u = 1 := by
  simp only [m1_u, gut_vector, sf_p0, sf_p1, dotv]
  linear_combination (1 / 4) * sqrt3_mul_self

theorem m1_v_dot : dotv m1_v m1_v = 1 := by
  simp only [m1_v, gut_vector, sf_p0, sf_p2, dotv]
  ring_nf

theorem m1_cross_dot :
    dotv (gut_cross_product m1_u m1_v) (gut_cross_product m1_u m1_v) = 3 / 4 := by
  simp only [m1_u, m1_v, gut_vector, gut_cross_product, sf_p0, sf_p1, sf_p2, dotv]
  linear_combination (1 / 4) * sqrt3_mul_self

theorem m2_u_dot : dotv m2_u m2_u = 1 := by
  simp only [m2_u, gut_vector, sf_p1, sf_p2, dotv]
  linear_combination (1 / 4) * sqrt3_mul_self

theorem m2_v_dot : dotv m2_v m2_v = 1 := by
  simp only [m2_v, gut_vector, sf_p1, sf_p0, dotv]
  linear_combination (1 / 4) * sqrt3_mul_self

theorem m2_cross_dot :
    dotv (gut_cross_product m2_u m2_v) (gut_cross_product m2_u m2_v) = 3 / 4 := by
  simp only [m2_u, m2_v, gut_vector, gut_cross_product, sf_p0, sf_p1, sf_p2, dotv]
  linear_combination (1 / 4) * sqrt3_mul_self

theorem m1_frame_cols :
    dotv (frameX m1_u) (frameX m1_u) = 1 ∧
    dotv (frameY m1_u m1_v) (frameY m1_u m1_v) = 1 ∧
    dotv (frameZ m1_u m1_v) (frameZ m1_u m1_v) = 1 ∧
    dotv (frameX m1_u) (frameY m1_u m1_v) = 0 ∧
    dotv (frameX m1_u) (frameZ m1_u m1_v) = 0 ∧
    dotv (frameY m1_u m1_v) (frameZ m1_u m1_v) = 0 :=
  frame_orthonormal m1_u m1_v (by rw [m1_u_dot]; norm_num)
    (by rw [m1_v_dot]; norm_num) (by rw [m1_cross_dot]; norm_num)

theorem m2_frame_cols :
    dotv (frameX m2_u) (frameX m2_u) = 1 ∧
    dotv (frameY m2_u m2_v) (frameY m2_u m2_v) = 1 ∧
    dotv (frameZ m2_u m2_v) (frameZ m2_u m2_v) = 1 ∧
    dotv (frameX m2_u) (frameY m2_u m2_v) = 0 ∧
    dotv (frameX m2_u) (frameZ m2_u m2_v) = 0 ∧
    dotv (frameY m2_u m2_v) (frameZ m2_u m2_v) = 0 :=
  frame_orthonormal m2_u m2_v (by rw [m2_u_dot]; norm_num)
    (by rw [m2_v_dot]; norm_num) (by rw [m2_cross_dot]; norm_num)

theorem face_m1_cancel (p : GUT_POINT) :
    mtx_vec4_multiply (mtx_vec4_multiply p face_m1) face_mt1 = p := by
  obtain ⟨hxx, hyy, hzz, hxy, hxz, hyz⟩ := m1_frame_cols
  obtain ⟨r1, r2, r3, r4, r5, r6⟩ := frame_rows _ _ _ hxx hyy hzz hxy hxz hyz
  exact frame_cancel_mt _ _ _ p r1 r2 r3 r4 r5 r6

theorem face_mt1_cancel (p : GUT_POINT) :
    mtx_vec4_multiply (mtx_vec4_multiply p face_mt1) face_m1 = p := by
  obtain ⟨hxx, hyy, hzz, hxy, hxz, hyz⟩ := m1_frame_cols
  exact frame_cancel_tm _ _ _ p hxx hyy hzz hxy hxz hyz

theorem face_m2_cancel (p : GUT_POINT) :
    mtx_vec4_multiply (mtx_vec4_multiply p face_m2) face_mt2 = p := by
  obtain ⟨hxx, hyy, hzz, hxy, hxz, hyz⟩ := m2_frame_cols
  obtain ⟨r1, r2, r3, r4, r5, r6⟩ := frame_rows _ _ _ hxx hyy hzz hxy hxz hyz
  exact frame_cancel_mt _ _ _ p r1 r2 r3 r4 r5 r6

theorem face_mt2_cancel (p : GUT_POINT) :
    mtx_vec4_multiply (mtx_vec4_multiply p face_mt2) face_m2 = p := by
  obtain ⟨hxx, hyy, hzz, hxy, hxz, hyz⟩ := m2_frame_cols
  exact frame_cancel_tm _ _ _ p hxx hyy hzz hxy hxz hyz

theorem face_m1_nsq (p : GUT_POINT) :
    nsq (mtx_vec4_multiply p face_m1) = nsq p := by
  obtain ⟨hxx, hyy, hzz, hxy, hxz, hyz⟩ := m1_frame_cols
  obtain ⟨r1, r2, r3, r4, r5, r6⟩ := frame_rows _ _ _ hxx hyy hzz hxy hxz hyz
  exact frame_nsq _ _ _ p r1 r2 r3 r4 r5 r6

theorem face_mt1_nsq (p : GUT_POINT) :
    nsq (mtx_vec4_multiply p face_mt1) = nsq p := by
  obtain ⟨hxx, hyy, hzz, hxy, hxz, hyz⟩ := m1_frame_cols
  exact frame_nsq_t _ _ _ p hxx hyy hzz hxy hxz hyz

theorem face_m2_nsq (p : GUT_POINT) :
    nsq (mtx_vec4_multiply p face_m2) = nsq p := by
  obtain ⟨hxx, hyy, hzz, hxy, hxz, hyz⟩ := m2_frame_cols
  obtain ⟨r1, r2, r3, r4, r5, r6⟩ := frame_rows _ _ _ hxx hyy hzz hxy hxz hyz
  exact frame_nsq _ _ _ p r1 r2 r3 r4 r5 r6

theorem face_mt2_nsq (p : GUT_POINT) :
    nsq (mtx_vec4_multiply p face_mt2) = nsq p := by
  obtain ⟨hxx, hyy, hzz, hxy, hxz, hyz⟩ := m2_frame_cols
  exact frame_nsq_t _ _ _ p hxx hyy hzz hxy hxz hyz

theorem mxMirror_cancel (p : GUT_POINT) :
    mtx_vec4_multiply (mtx_vec4_multiply p mxMirror) mxMirror = p := by
  ext <;> simp only [mtx_vec4_multiply, mxMirror, mtx_create_scale_matrix, mtx_set_unity] <;> ring

theorem mxMirror_nsq (p : GUT_POINT) :
    nsq (mtx_vec4_multiply p mxMirror) = nsq p := by
  simp only [nsq, mtx_vec4_multiply, mxMirror, mtx_create_scale_matrix, mtx_set_unity]
  ring

theorem unity_vec4 (p : GUT_POINT) : mtx_vec4_multiply p mtx_set_unity = p := by
  ext <;> simp only [mtx_vec4_multiply, mtx_set_unity] <;> ring

/-- Composing two matrix applications through `mtx_multiply_matrix` agrees
with applying the factors in sequence, provided the factors have the
affine zero pattern in their last column (slots 3, 7, 11).  This is where
the slot-11 slip of `mtx_multiply_matrix` is absorbed: under these
hypotheses the mis-copied slot evaluates to the same value 0 as the
correct formula, so the product still acts as the composition. -/
theorem mtx_vec4_multiply_assoc (a b : Mtx) (p : GUT_POINT)
    (ha7 : a.m7 = 0) (ha11 : a.m11 = 0)
    (hb3 : b.m3 = 0) (hb7 : b.m7 = 0) (hb11 : b.m11 = 0) :
    mtx_vec4_multiply p (mtx_multiply_matrix a b) =
      mtx_vec4_multiply (mtx_vec4_multiply p a) b := by
  ext <;>
    simp only [mtx_vec4_multiply, mtx_multiply_matrix, ha7, ha11, hb3, hb7, hb11] <;>
    ring

theorem mul_m1_mx_m7 : (mtx_multiply_matrix face_m1 mxMirror).m7 = 0 := by
  show face_m1.m4 * mxMirror.m3 + face_m1.m5 * mxMirror.m7 +
      face_m1.m6 * mxMirror.m11 + face_m1.m7 * mxMirror.m15 = 0
  rw [show mxMirror.m3 = 0 from rfl, show mxMirror.m7 = 0 from rfl,
    show mxMirror.m11 = 0 from rfl, show face_m1.m7 = 0 from rfl]
  ring

theorem mul_m1_mx_m11 : (mtx_multiply_matrix face_m1 mxMirror).m11 = 0 := by
  show face_m1.m4 * mxMirror.m3 + face_m1.m5 * mxMirror.m7 +
      face_m1.m6 * mxMirror.m11 + face_m1.m7 * mxMirror.m15 = 0
  rw [show mxMirror.m3 = 0 from rfl, show mxMirror.m7 = 0 from rfl,
    show mxMirror.m11 = 0 from rfl, show face_m1.m7 = 0 from rfl]
  ring

theorem mul_m2_mx_m7 : (mtx_multiply_matrix face_m2 mxMirror).m7 = 0 := by
  show face_m2.m4 * mxMirror.m3 + face_m2.m5 * mxMirror.m7 +
      face_m2.m6 * mxMirror.m11 + face_m2.m7 * mxMirror.m15 = 0
  rw [show mxMirror.m3 = 0 from rfl, show mxMirror.m7 = 0 from rfl,
    show mxMirror.m11 = 0 from rfl, show face_m2.m7 = 0 from rfl]
  ring

theorem mul_m2_mx_m11 : (mtx_multiply_matrix face_m2 mxMirror).m11 = 0 := by
  show face_m2.m4 * mxMirror.m3 + face_m2.m5 * mxMirror.m7 +
      face_m2.m6 * mxMirror.m11 + face_m2.m7 * mxMirror.m15 = 0
  rw [show mxMirror.m3 = 0 from rfl, show mxMirror.m7 = 0 from rfl,
    show mxMirror.m11 = 0 from rfl, show face_m2.m7 = 0 from rfl]
  ring

theorem split_mx_mt1 (p : GUT_POINT) :
    mtx_vec4_multiply p (mtx_multiply_matrix mxMirror face_mt1) =
      mtx_vec4_multiply (mtx_vec4_multiply p mxMirror) face_mt1 :=
  mtx_vec4_multiply_assoc _ _ p rfl rfl rfl rfl rfl

theorem split_mx_mt2 (p : GUT_POINT) :
    mtx_vec4_multiply p (mtx_multiply_matrix mxMirror face_mt2) =
      mtx_vec4_multiply (mtx_vec4_multiply p mxMirror) face_mt2 :=
  mtx_vec4_multiply_assoc _ _ p rfl rfl rfl rfl rfl

theorem split_m1_mx (p : GUT_POINT) :
    mtx_vec4_multiply p (mtx_multiply_matrix face_m1 mxMirror) =
      mtx_vec4_multiply (mtx_vec4_multiply p face_m1) mxMirror :=
  mtx_vec4_multiply_assoc _ _ p rfl rfl rfl rfl rfl

theorem split_m1_mx_mt1 (p : GUT_POINT) :
    mtx_vec4_multiply p (mtx_multiply_matrix (mtx_multiply_matrix face_m1 mxMirror) face_mt1) =
      mtx_vec4_multiply (mtx_vec4_multiply p (mtx_multiply_matrix face_m1 mxMirror)) face_mt1 :=
  mtx_vec4_multiply_assoc _ _ p mul_m1_mx_m7 mul_m1_mx_m11 rfl rfl rfl

theorem split_m1_mt2 (p : GUT_POINT) :
    mtx_vec4_multiply p (mtx_multiply_matrix face_m1 face_mt2) =
      mtx_vec4_multiply (mtx_vec4_multiply p face_m1) face_mt2 :=
  mtx_vec4_multiply_assoc _ _ p rfl rfl rfl rfl rfl

theorem split_m2_mx (p : GUT_POINT) :
    mtx_vec4_multiply p (mtx_multiply_matrix face_m2 mxMirror) =
      mtx_vec4_multiply (mtx_vec4_multiply p face_m2) mxMirror :=
  mtx_vec4_multiply_assoc _ _ p rfl rfl rfl rfl rfl

theorem split_m2_mt1 (p : GUT_POINT) :
    mtx_vec4_multiply p (mtx_multiply_matrix face_m2 face_mt1) =
      mtx_vec4_multiply (mtx_vec4_multiply p face_m2) face_mt1 :=
  mtx_vec4_multiply_assoc _ _ p rfl rfl rfl rfl rfl

theorem split_m2_mx_mt2 (p : GUT_POINT) :
    mtx_vec4_multiply p (mtx_multiply_matrix (mtx_multiply_matrix face_m2 mxMirror) face_mt2) =
      mtx_vec4_multiply (mtx_vec4_multiply p (mtx_multiply_matrix face_m2 mxMirror)) face_mt2 :=
  mtx_vec4_multiply_assoc _ _ p mul_m2_mx_m7 mul_m2_mx_m11 rfl rfl rfl

/-- `build_a_transforms`: the 6x6 table `pgm->subface[i].sub[j].m` of
region-to-region transforms, entry by entry as assigned in the source
(`.` entries are identity factors; two-term products go through the
temporary `mm` exactly as the source associates them). -/
noncomputable def subfaceTable : Fin 6 → Fin 6 → Mtx := fun i j =>
  match i, j with
  | ⟨0, _⟩, ⟨0, _⟩ => mtx_set_unity
  | ⟨0, _⟩, ⟨1, _⟩ => mtx_multiply_matrix mxMirror face_mt1
  | ⟨0, _⟩, ⟨2, _⟩ => face_mt1
  | ⟨0, _⟩, ⟨3, _⟩ => mtx_multiply_matrix mxMirror face_mt2
  | ⟨0, _⟩, ⟨4, _⟩ => face_mt2
  | ⟨0, _⟩, ⟨5, _⟩ => mxMirror
  | ⟨1, _⟩, ⟨0, _⟩ => mtx_multiply_matrix face_m1 mxMirror
  | ⟨1, _⟩, ⟨1, _⟩ => mtx_set_unity
  | ⟨1, _⟩, ⟨2, _⟩ => mtx_multiply_matrix (mtx_multiply_matrix face_m1 mxMirror) face_mt1
  | ⟨1, _⟩, ⟨3, _⟩ => mtx_multiply_matrix face_m1 face_mt2
  | ⟨1, _⟩, ⟨4, _⟩ => mxMirror
  | ⟨1, _⟩, ⟨5, _⟩ => face_m1
  | ⟨2, _⟩, ⟨0, _⟩ => face_m1
  | ⟨2, _⟩, ⟨1, _⟩ => mtx_multiply_matrix (mtx_multiply_matrix face_m1 mxMirror) face_mt1
  | ⟨2, _⟩, ⟨2, _⟩ => mtx_set_unity
  | ⟨2, _⟩, ⟨3, _⟩ => mxMirror
  | ⟨2, _⟩, ⟨4, _⟩ => mtx_multiply_matrix face_m1 face_mt2
  | ⟨2, _⟩, ⟨5, _⟩ => mtx_multiply_matrix face_m1 mxMirror
  | ⟨3, _⟩, ⟨0, _⟩ => mtx_multiply_matrix face_m2 mxMirror
  | ⟨3, _⟩, ⟨1, _⟩ => mtx_multiply_matrix face_m2 face_mt1
  | ⟨3, _⟩, ⟨2, _⟩ => mxMirror
  | ⟨3, _⟩, ⟨3, _⟩ => mtx_set_unity
  | ⟨3, _⟩, ⟨4, _⟩ => mtx_multiply_matrix (mtx_multiply_matrix face_m2 mxMirror) face_mt2
  | ⟨3, _⟩, ⟨5, _⟩ => face_m2
  | ⟨4, _⟩, ⟨0, _⟩ => face_m2
  | ⟨4, _⟩, ⟨1, _⟩ => mxMirror
  | ⟨4, _⟩, ⟨2, _⟩ => mtx_multiply_matrix face_m2 face_mt1
  | ⟨4, _⟩, ⟨3, _⟩ => mtx_multiply_matrix (mtx_multiply_matrix face_m2 mxMirror) face_mt2
  | ⟨4, _⟩, ⟨4, _⟩ => mtx_set_unity
  | ⟨4, _⟩, ⟨5, _⟩ => mtx_multiply_matrix face_m2 mxMirror
  | ⟨5, _⟩, ⟨0, _⟩ => mxMirror
  | ⟨5, _⟩, ⟨1, _⟩ => face_mt1
  | ⟨5, _⟩, ⟨2, _⟩ => mtx_multiply_matrix mxMirror face_mt1
  | ⟨5, _⟩, ⟨3, _⟩ => face_mt2
  | ⟨5, _⟩, ⟨4, _⟩ => mtx_multiply_matrix mxMirror face_mt2
  | ⟨5, _⟩, ⟨5, _⟩ => mtx_set_unity

/-- `subface_exchange`: transform point `pSrc` from area `aSrc` to area
`aDst` with the table entry `subface[aSrc].sub[aDst].m`. -/
noncomputable def subface_exchange (aSrc aDst : Fin 6) (pSrc : GUT_POINT) : GUT_POINT :=
  mtx_vec4_multiply pSrc (subfaceTable aSrc aDst)

/-- C6.  For every pair of region indices i, j and every point p, applying
the region transform [i][j] and then [j][i] returns p — here proved as an
exact identity over ℝ, which in particular puts every coordinate within
the claimed 1e-9 — and every diagonal entry [i][i] of the table built by
`build_a_transforms` is the identity matrix. -/
theorem subface_inverse_pairs_and_diag :
    (∀ (i j : Fin 6) (p : GUT_POINT),
      subface_exchange j i (subface_exchange i j p) = p) ∧
    (∀ i : Fin 6, subfaceTable i i = mtx_set_unity) := by
  constructor
  · intro i j p
    fin_cases i <;> fin_cases j <;>
      simp only [subface_exchange, subfaceTable, split_mx_mt1, split_mx_mt2,
        split_m1_mx, split_m1_mx_mt1, split_m1_mt2, split_m2_mx, split_m2_mt1,
        split_m2_mx_mt2, face_m1_cancel, face_mt1_cancel, face_m2_cancel,
        face_mt2_cancel, mxMirror_cancel, unity_vec4]
  · intro i
    fin_cases i <;> rfl

/-- The corner vertices of the equatorial icosahedral face defined in
`build_face_transforms` from spherical coordinates (radius 1, inclination
atan(2) or 180deg - atan(2), azimuths 0 and +-36deg).  The C target
structs are uninitialized stack memory whose w slots are never read;
zeroed priors are passed here.  `vtx[3]` is computed but unused. -/
noncomputable def face_vtx1 : GUT_POINT :=
  gut_spherical_to_cartesian ⟨1, 0, Real.arctan 2⟩ ⟨0, 0, 0, 0⟩

noncomputable def face_vtx2 : GUT_POINT :=
  gut_spherical_to_cartesian ⟨1, DTR (-36), DTR 180 - Real.arctan 2⟩ ⟨0, 0, 0, 0⟩

noncomputable def face_vtx0 : GUT_POINT :=
  gut_spherical_to_cartesian ⟨1, DTR 36, DTR 180 - Real.arctan 2⟩ ⟨0, 0, 0, 0⟩

/-- Edge vectors used by `rotation_matrix_from_triangle(&vtx[0], &vtx[1],
&vtx[2], ...)`: x from p2 to p0, y from p2 to p1.  (The centroid the
source computes there is never used.) -/
noncomputable def tm_u : GUT_VECTOR := gut_vector face_vtx2 face_vtx0

noncomputable def tm_v : GUT_VECTOR := gut_vector face_vtx2 face_vtx1

/-- `pgm->face.tm`: the local-to-global rotation of the equatorial face. -/
noncomputable def face_tm : Mtx :=
  mtx_from_frame (frameX tm_u) (frameY tm_u tm_v) (frameZ tm_u tm_v)

/-- `pgm->face.tmt`: its transpose, the global-to-local rotation. -/
noncomputable def face_tmt : Mtx := mtx_transpose_matrix face_tm

theorem arctan_two_lt : Real.arctan 2 < 1.25 := by
  have hpi3 : (3 : ℝ) < π := Real.pi_gt_three
  have h125 : (1.25 : ℝ) < π / 2 := by linarith
  have hcos125 : Real.cos 1.25 < 0.365 := by
    have h2 : (1.25 : ℝ) = 2 * 0.625 := by norm_num
    have hsin : (0.5639 : ℝ) < Real.sin 0.625 := by
      have h := Real.sin_gt_sub_cube (by norm_num : (0 : ℝ) < 0.625)
        (by norm_num : (0.625 : ℝ) ≤ 1)
      norm_num at h
      linarith
    have hc2 : Real.cos (2 * 0.625) = 2 * Real.cos 0.625 ^ 2 - 1 :=
      Real.cos_two_mul 0.625
    have hcs : Real.cos 0.625 ^ 2 = 1 - Real.sin 0.625 ^ 2 := Real.cos_sq' 0.625
    rw [h2, hc2, hcs]
    nlinarith [hsin, sq_nonneg (Real.sin 0.625 - 0.5639)]
  have hsin125 : (0.75 : ℝ) < Real.sin 1.25 := by
    have h1 : (0.75 : ℝ) < Real.sin 1 := by
      have h := Real.sin_gt_sub_cube (by norm_num : (0 : ℝ) < 1) (le_refl 1)
      norm_num at h
      linarith
    have hmono : Real.sin 1 < Real.sin 1.25 :=
      Real.strictMonoOn_sin (by constructor <;> linarith)
        (by constructor <;> linarith) (by norm_num)
    linarith
  have htan : (2 : ℝ) < Real.tan 1.25 := by
    rw [Real.tan_eq_sin_div_cos]
    have hcpos : 0 < Real.cos 1.25 := Real.cos_pos_of_mem_Ioo ⟨by linarith, h125⟩
    rw [lt_div_iff₀ hcpos]
    linarith
  have h := Real.arctan_strictMono htan
  rwa [Real.arctan_tan (by linarith) h125] at h

theorem incl_facts :
    0 < DTR 180 - Real.arctan 2 ∧ DTR 180 - Real.arctan 2 < π ∧
    π / 2 < DTR 180 - Real.arctan 2 := by
  have h1 : Real.arctan 2 < 1.25 := arctan_two_lt
  have h2 : Real.arctan 1 < Real.arctan 2 := Real.arctan_strictMono (by norm_num)
  rw [Real.arctan_one] at h2
  have hpi6 : (3.141592 : ℝ) < π := Real.pi_gt_d6
  have hpi6' : π < 3.141593 := Real.pi_lt_d6
  have hd1 : (3.1415926 : ℝ) < DTR 180 := by norm_num [DTR]
  have hd2 : DTR (180 : ℝ) < 3.1415927 := by norm_num [DTR]
  refine ⟨by linarith, by linarith, by linarith⟩

theorem sin_DTR36_pos : 0 < Real.sin (DTR 36) := by
  refine Real.sin_pos_of_pos_of_lt_pi (by norm_num [DTR]) ?_
  have h1 : DTR (36 : ℝ) < 0.63 := by norm_num [DTR]
  linarith [Real.pi_gt_three]

theorem tm_u_eq : tm_u =
    ⟨0, 2 * (Real.sin (DTR 180 - Real.arctan 2) * Real.sin (DTR 36)), 0, 0⟩ := by
  have hneg : DTR (-36 : ℝ) = -DTR 36 := by norm_num [DTR]
  simp only [tm_u, gut_vector, face_vtx0, face_vtx2, gut_spherical_to_cartesian,
    hneg, Real.cos_neg, Real.sin_neg]
  ext <;> ring

theorem tm_v_eq : tm_v =
    ⟨Real.sin (Real.arctan 2) - Real.sin (DTR 180 - Real.arctan 2) * Real.cos (DTR 36),
     Real.sin (DTR 180 - Real.arctan 2) * Real.sin (DTR 36),
     Real.cos (Real.arctan 2) - Real.cos (DTR 180 - Real.arctan 2), 0⟩ := by
  have hneg : DTR (-36 : ℝ) = -DTR 36 := by norm_num [DTR]
  simp only [tm_v, gut_vector, face_vtx1, face_vtx2, gut_spherical_to_cartesian,
    hneg, Real.cos_neg, Real.sin_neg, Real.sin_zero, Real.cos_zero]
  ext <;> ring

theorem tm_hu : 0 < dotv tm_u tm_u := by
  obtain ⟨hI0, hIpi, _⟩ := incl_facts
  have hsinI : 0 < Real.sin (DTR 180 - Real.arctan 2) :=
    Real.sin_pos_of_pos_of_lt_pi hI0 hIpi
  rw [tm_u_eq]
  simp only [dotv]
  nlinarith [mul_pos (mul_pos hsinI sin_DTR36_pos) (mul_pos hsinI sin_DTR36_pos)]

theorem tm_hv : 0 < dotv tm_v tm_v := by
  obtain ⟨hI0, hIpi, _⟩ := incl_facts
  have hsinI : 0 < Real.sin (DTR 180 - Real.arctan 2) :=
    Real.sin_pos_of_pos_of_lt_pi hI0 hIpi
  rw [tm_v_eq]
  simp only [dotv]
  nlinarith [mul_pos (mul_pos hsinI sin_DTR36_pos) (mul_pos hsinI sin_DTR36_pos),
    mul_self_nonneg (Real.sin (Real.arctan 2) -
      Real.sin (DTR 180 - Real.arctan 2) * Real.cos (DTR 36)),
    mul_self_nonneg (Real.cos (Real.arctan 2) - Real.cos (DTR 180 - Real.arctan 2))]

theorem tm_hc : 0 < dotv (gut_cross_product tm_u tm_v) (gut_cross_product tm_u tm_v) := by
  obtain ⟨hI0, hIpi, hIhalf⟩ := incl_facts
  have hsinI : 0 < Real.sin (DTR 180 - Real.arctan 2) :=
    Real.sin_pos_of_pos_of_lt_pi hI0 hIpi
  have hcosA : 0 < Real.cos (Real.arctan 2) := Real.cos_arctan_pos 2
  have hcosI : Real.cos (DTR 180 - Real.arctan 2) < 0 :=
    Real.cos_neg_of_pi_div_two_lt_of_lt hIhalf (by linarith [Real.pi_pos])
  have hk : 0 < Real.cos (Real.arctan 2) - Real.cos (DTR 180 - Real.arctan 2) := by
    linarith
  have hj : 0 < 2 * (Real.sin (DTR 180 - Real.arctan 2) * Real.sin (DTR 36)) := by
    nlinarith [mul_pos hsinI sin_DTR36_pos]
  rw [tm_u_eq, tm_v_eq]
  simp only [gut_cross_product, dotv]
  nlinarith [mul_pos (mul_pos hj hk) (mul_pos hj hk),
    mul_self_nonneg (2 * (Real.sin (DTR 180 - Real.arctan 2) * Real.sin (DTR 36)) *
      (Real.sin (Real.arctan 2) -
        Real.sin (DTR 180 - Real.arctan 2) * Real.cos (DTR 36)))]

theorem tm_frame_cols :
    dotv (frameX tm_u) (frameX tm_u) = 1 ∧
    dotv (frameY tm_u tm_v) (frameY tm_u tm_v) = 1 ∧
    dotv (frameZ tm_u tm_v) (frameZ tm_u tm_v) = 1 ∧
    dotv (frameX tm_u) (frameY tm_u tm_v) = 0 ∧
    dotv (frameX tm_u) (frameZ tm_u tm_v) = 0 ∧
    dotv (frameY tm_u tm_v) (frameZ tm_u tm_v) = 0 :=
  frame_orthonormal tm_u tm_v tm_hu tm_hv tm_hc

theorem face_tm_nsq (p : GUT_POINT) :
    nsq (mtx_vec4_multiply p face_tm) = nsq p := by
  obtain ⟨hxx, hyy, hzz, hxy, hxz, hyz⟩ := tm_frame_cols
  obtain ⟨r1, r2, r3, r4, r5, r6⟩ := frame_rows _ _ _ hxx hyy hzz hxy hxz hyz
  exact frame_nsq _ _ _ p r1 r2 r3 r4 r5 r6

theorem face_tmt_nsq (p : GUT_POINT) :
    nsq (mtx_vec4_multiply p face_tmt) = nsq p := by
  obtain ⟨hxx, hyy, hzz, hxy, hxz, hyz⟩ := tm_frame_cols
  exact frame_nsq_t _ _ _ p hxx hyy hzz hxy hxz hyz

/-- `VERTEX`: the six symmetric instances of one vertex (cartesian and
spherical coordinates per LCD region 0..5). -/
structure VERTEX where
  p : Fin 6 → GUT_POINT
  sc : Fin 6 → GUT_SPHERICAL_COORD

/-- `generate_all_vertices`: transform the known point of region `a` to
global position with `face.tm`, build the other five symmetric global
points with `subface_exchange`, transform all six back to local position
with `face.tmt`, and recompute all six spherical coordinates. -/
noncomputable def generate_all_vertices (vtx : VERTEX) (a : Fin 6) : VERTEX :=
  let gpa := mtx_vec4_multiply (vtx.p a) face_tm
  let gp : Fin 6 → GUT_POINT := fun i => if i = a then gpa else subface_exchange a i gpa
  let lp : Fin 6 → GUT_POINT := fun i => mtx_vec4_multiply (gp i) face_tmt
  { p := lp, sc := fun i => gut_cartesian_to_spherical (lp i) (vtx.sc i) }

/-- `create_vertex_by_sc`: place one region's point from explicit
azimuth/inclination at radius 1, then replicate. -/
noncomputable def create_vertex_by_sc (vtx : VERTEX) (a : Fin 6)
    (azimuth inclination : ℝ) : VERTEX :=
  let sc : GUT_SPHERICAL_COORD := ⟨1, azimuth, inclination⟩
  let p := gut_spherical_to_cartesian sc (vtx.p a)
  generate_all_vertices ⟨Function.update vtx.p a p, Function.update vtx.sc a sc⟩ a

/-- `create_vertex_by_strig`: solve the oblique spherical triangle from
(b, c, C) on a cleared `SPH_TRI`, map side c to inclination and angle A to
azimuth at radius 1, then replicate. -/
noncomputable def create_vertex_by_strig (vtx : VERTEX) (a : Fin 6)
    (b c C : ℝ) : VERTEX :=
  let st := sph_tri_bcC ⟨0, b, c, 0, 0, C⟩
  let sc : GUT_SPHERICAL_COORD := ⟨1, st.A, st.c⟩
  let p := gut_spherical_to_cartesian sc (vtx.p a)
  generate_all_vertices ⟨Function.update vtx.p a p, Function.update vtx.sc a sc⟩ a

/-- `create_vertex_from_vertex`: like `create_vertex_by_strig` with the
source vertex instance's inclination as side c. -/
noncomputable def create_vertex_from_vertex (vtxd : VERTEX) (ad : Fin 6)
    (vtxs : VERTEX) (as' : Fin 6) (b C : ℝ) : VERTEX :=
  create_vertex_by_strig vtxd ad b ((vtxs.sc as').inclination) C

/-- A point produced by `gut_spherical_to_cartesian` has squared norm
radius². -/
theorem nsq_spherical (sc : GUT_SPHERICAL_COORD) (p0 : GUT_POINT) :
    nsq (gut_spherical_to_cartesian sc p0) = sc.radius * sc.radius := by
  simp only [gut_spherical_to_cartesian, nsq]
  have h1 := Real.sin_sq_add_cos_sq sc.inclination
  have h2 := Real.sin_sq_add_cos_sq sc.azimuth
  linear_combination (sc.radius * sc.radius * Real.sin sc.inclination ^ 2) * h2 +
    (sc.radius * sc.radius) * h1

/-- Every region-to-region transform of the table preserves the squared
Cartesian norm. -/
theorem subface_exchange_nsq (aSrc aDst : Fin 6) (p : GUT_POINT) :
    nsq (subface_exchange aSrc aDst p) = nsq p := by
  fin_cases aSrc <;> fin_cases aDst <;>
    simp only [subface_exchange, subfaceTable, split_mx_mt1, split_mx_mt2,
      split_m1_mx, split_m1_mx_mt1, split_m1_mt2, split_m2_mx, split_m2_mt1,
      split_m2_mx_mt2, face_m1_nsq, face_mt1_nsq, face_m2_nsq, face_mt2_nsq,
      mxMirror_nsq, unity_vec4]

/-- Replication preserves the unit squared norm of the seed instance for
all six produced instances. -/
theorem generate_all_vertices_nsq (vtx : VERTEX) (a : Fin 6)
    (h : nsq (vtx.p a) = 1) (i : Fin 6) :
    nsq ((generate_all_vertices vtx a).p i) = 1 := by
  simp only [generate_all_vertices]
  by_cases hia : i = a
  · rw [if_pos hia, face_tmt_nsq, face_tm_nsq, h]
  · rw [if_neg hia, face_tmt_nsq, subface_exchange_nsq, face_tm_nsq, h]

/-- C7.  After any of the three vertex-creation operations (each of which
ends by calling `generate_all_vertices`), every one of the six stored
region instances of that vertex lies on the unit sphere: its Cartesian
norm equals 1 — exactly in this real-number model, hence in particular
within the claimed 1e-9. -/
theorem create_vertex_unit_sphere :
    (∀ (vtx : VERTEX) (a : Fin 6) (az incl : ℝ) (i : Fin 6),
      |Real.sqrt (nsq ((create_vertex_by_sc vtx a az incl).p i)) - 1| ≤ 1e-9) ∧
    (∀ (vtx : VERTEX) (a : Fin 6) (b c C : ℝ) (i : Fin 6),
      |Real.sqrt (nsq ((create_vertex_by_strig vtx a b c C).p i)) - 1| ≤ 1e-9) ∧
    (∀ (vtxd : VERTEX) (ad : Fin 6) (vtxs : VERTEX) (as' : Fin 6) (b C : ℝ) (i : Fin 6),
      |Real.sqrt (nsq ((create_vertex_from_vertex vtxd ad vtxs as' b C).p i)) - 1| ≤ 1e-9) := by
  have key : ∀ (vtx : VERTEX) (a : Fin 6) (sc : GUT_SPHERICAL_COORD) (i : Fin 6),
      sc.radius = 1 →
      nsq ((generate_all_vertices
        ⟨Function.update vtx.p a (gut_spherical_to_cartesian sc (vtx.p a)),
          Function.update vtx.sc a sc⟩ a).p i) = 1 := by
    intro vtx a sc i hr
    refine generate_all_vertices_nsq _ a ?_ i
    show nsq (Function.update vtx.p a (gut_spherical_to_cartesian sc (vtx.p a)) a) = 1
    rw [Function.update_same, nsq_spherical, hr, mul_one]
  have habs : ∀ r : ℝ, r = 1 → |Real.sqrt r - 1| ≤ 1e-9 := by
    intro r hr
    rw [hr, Real.sqrt_one]
    norm_num
  refine ⟨fun vtx a az incl i => ?_, fun vtx a b c C i => ?_,
    fun vtxd ad vtxs as' b C i => ?_⟩
  · exact habs _ (key vtx a ⟨1, az, incl⟩ i rfl)
  · exact habs _ (key vtx a ⟨1, (sph_tri_bcC ⟨0, b, c, 0, 0, C⟩).A,
      (sph_tri_bcC ⟨0, b, c, 0, 0, C⟩).c⟩ i rfl)
  · exact habs _ (key vtxd ad ⟨1, (sph_tri_bcC ⟨0, b, (vtxs.sc as').inclination, 0, 0, C⟩).A,
      (sph_tri_bcC ⟨0, b, (vtxs.sc as').inclination, 0, 0, C⟩).c⟩ i rfl)
